import Mathlib

/-!
# SOSML interpreter core: a shallow embedding with verified properties

This file embeds the core of a Standard ML interpreter written in TypeScript
(lexer, AST simplifier, state, values, evaluator) as executable Lean
definitions, and proves properties of interest about them.

Conventions used throughout:

* JavaScript `throw` of an interpreter-level error is modelled with `Except`:
  a thrown error is an `.error` result.
* Machine integers are modelled as `Int` (the source works with JS numbers
  used at integer precision); `MAXINT`/`MININT` bound the representable SML
  integers.
* The scanner of the source walks a string with a numeric cursor; here the
  remaining input is a `List Char` and the consumed text is threaded
  explicitly.  The `getChar` method of the source returns an end-of-
  transmission character (code 4) past the end of the input, mirrored by
  `getCh`.
* Definitions whose originating file is not part of the interpreter sources
  available here (state, initial state, expression evaluation, the top-level
  `interpret` wrapper) are modelled from the specification; each such
  definition carries a doc comment starting with `Modelled from the spec:`.
-/

namespace SOSML

/-- The apostrophe (prime) character, used by type variables. -/
def primeChar : Char := Char.ofNat 39

/-- The backtick character, a symbolic identifier constituent. -/
def backtickChar : Char := Char.ofNat 96

/-- The form-feed character, whitespace for the lexer. -/
def formFeedChar : Char := Char.ofNat 12

/-- End-of-transmission character returned by `getChar` past the input end. -/
def eotChar : Char := Char.ofNat 4

/-- Modelled from the spec: the integer bounds of the 31-bit integer core
(`values.ts` as available here does not contain the `MAXINT` constant the
lexer imports; the bound is fixed by the specification scenarios and the
`Int.maxInt` binding of the test preamble). -/
def MAXINT : Int := 1073741823

/-- Modelled from the spec: lower integer bound, see `MAXINT`. -/
def MININT : Int := -1073741824

/-- Errors thrown by the lexer (`errors.ts` kinds used by `lexer.ts`). -/
inductive LexError where
  | lexerError (msg : String)
  | incompleteError (msg : String)
  | internalError (msg : String)
deriving Repr, DecidableEq

/-- Tokens produced by the lexer (`tokens.ts` vocabulary as used by
`lexer.ts`; token positions are not modelled). -/
inductive Token where
  | keywordToken (text : String)
  | numericToken (text : String) (value : Int)
  | integerConstantToken (text : String) (value : Int)
  | realConstantToken (text : String) (value : String)
  | wordConstantToken (text : String) (value : Int)
  | characterConstantToken (text : String) (value : Char)
  | stringConstantToken (text : String) (value : String)
  | identifierToken (text : String)
  | alphanumericIdentifierToken (text : String)
  | typeVariableToken (text : String)
  | equalityTypeVariableToken (text : String)
  | starToken
  | equalsToken
  | longIdentifierToken (text : String) (qualifiers : List Token) (final : Token)
deriving Repr

/-- The reserved words of the language, incl. reserved single symbols. -/
def reservedWords : List String :=
  ["abstype", "and", "andalso", "as", "case", "datatype", "do", "else",
   "end", "exception", "fn", "fun", "handle", "if", "in", "infix",
   "infixr", "let", "local", "nonfix", "of", "op", "open", "orelse",
   "raise", "rec", "then", "type", "val", "with", "withtype", "while",
   "(", ")", "[", "]", "\x7b", "\x7d", ",", ":", ";", "...", "_", "|", "=",
   "=>", "->", "#", "eqtype", "functor", "signature", "struct", "include",
   "sharing", "structure", "where", "sig", ":>"]

/-- The symbolic identifier constituent characters. -/
def symbolicChars : List Char :=
  ['!', '%', '&', '$', '#', '+', '-', '/', ':', '<', '=', '>', '?', '@',
   '\\', '~', backtickChar, '^', '|', '*']

/-- `Lexer.isAlphanumeric`. -/
def isAlphanumericChar (c : Char) : Bool :=
  ('a' ≤ c && c ≤ 'z') || ('A' ≤ c && c ≤ 'Z') || ('0' ≤ c && c ≤ '9')
    || c = primeChar || c = '_'

/-- `Lexer.isSymbolic`. -/
def isSymbolicChar (c : Char) : Bool := symbolicChars.contains c

/-- `Lexer.isWhitespace`. -/
def isWhitespaceChar (c : Char) : Bool :=
  c = ' ' || c = '\t' || c = '\n' || c = formFeedChar

/-- `Lexer.isNumber c hexadecimal`. -/
def isNumberChar (hex : Bool) (c : Char) : Bool :=
  ('0' ≤ c && c ≤ '9')
    || (hex && (('a' ≤ c && c ≤ 'f') || ('A' ≤ c && c ≤ 'F')))

/-- `Lexer.getChar`: character at the given offset of the remaining input,
or the end-of-transmission character past the end. -/
def getCh (l : List Char) (off : Nat) : Char := l.getD off eotChar

/-- Numeric value of a (decimal or hexadecimal) digit character. -/
def digitVal (c : Char) : Nat :=
  if '0' ≤ c && c ≤ '9' then c.toNat - 48
  else if 'a' ≤ c && c ≤ 'f' then c.toNat - 87
  else if 'A' ≤ c && c ≤ 'F' then c.toNat - 55
  else 0

/-- Value of a digit sequence in the given radix. -/
def parseDigits (radix : Nat) (l : List Char) : Nat :=
  l.foldl (fun a c => a * radix + digitVal c) 0

/-- JS `parseInt` on the digit strings built by the number lexer
(an optional leading minus sign followed by digits). -/
def parseIntJS (radix : Nat) (s : String) : Int :=
  match s.toList with
  | '-' :: r => -(parseDigits radix r : Int)
  | l => (parseDigits radix l : Int)

/-- `Lexer.readNumeric`: reads a digit sequence, stopping when the
accumulated length equals `maxLength` (which is `-1` for "no bound",
mirroring the source).  Returns the digits read and the rest. -/
def readNumeric (hex : Bool) (maxLength : Int) (l : List Char)
    (acc : String := "") : String × List Char :=
  match l with
  | [] => (acc, [])
  | c :: r =>
    if isNumberChar hex c && (acc.length : Int) ≠ maxLength then
      readNumeric hex maxLength r (acc.push c)
    else (acc, c :: r)

/-- `Lexer.makeNumberToken`: builds the token for a scanned number.
`token` is the consumed source text, `value` the digit string built by
`lexNumber`.  Out-of-range non-real values are a `LexerError`. -/
def makeNumberToken (token value : String) (real word hex : Bool) :
    Except LexError Token :=
  if real && word then .error (.internalError "real word")
  else if real then .ok (.realConstantToken token value)
  else if parseIntJS (if hex then 16 else 10) value > MAXINT then
    .error (.lexerError "over MAXINT")
  else if parseIntJS (if hex then 16 else 10) value < MININT then
    .error (.lexerError "under MININT")
  else if word then
    .ok (.wordConstantToken token (parseIntJS (if hex then 16 else 10) value))
  else if isNumberChar false (getCh token.toList 0)
      && getCh token.toList 0 ≠ '0' then
    .ok (.numericToken token (parseIntJS (if hex then 16 else 10) value))
  else .ok (.integerConstantToken token (parseIntJS (if hex then 16 else 10) value))

/-- Exponent part of `Lexer.lexNumber` (the code after the fraction
handling).  `txt` is the source text consumed so far, `value` the digit
string, `real` whether a fraction part was seen. -/
def lexNumberExp (txt value : String) (real : Bool) (l : List Char) :
    Except LexError (Token × List Char) :=
  if getCh l 0 = 'e' || getCh l 0 = 'E' then
    if isNumberChar false (getCh l 1) then
      match makeNumberToken ((txt.push (getCh l 0)) ++ (readNumeric false (-1) (l.drop 1)).1)
          (value ++ "e" ++ (readNumeric false (-1) (l.drop 1)).1) true false false with
      | .error e => .error e
      | .ok t => .ok (t, (readNumeric false (-1) (l.drop 1)).2)
    else if getCh l 1 = '~' && isNumberChar false (getCh l 2) then
      match makeNumberToken ((txt.push (getCh l 0)) ++ "~" ++ (readNumeric false (-1) (l.drop 2)).1)
          (value ++ "e-" ++ (readNumeric false (-1) (l.drop 2)).1) true false false with
      | .error e => .error e
      | .ok t => .ok (t, (readNumeric false (-1) (l.drop 2)).2)
    else
      match makeNumberToken txt value real false false with
      | .error e => .error e
      | .ok t => .ok (t, l)
  else
    match makeNumberToken txt value real false false with
    | .error e => .error e
    | .ok t => .ok (t, l)

/-- Fraction part of `Lexer.lexNumber` (the code testing for a decimal
point), continuing into the exponent part. -/
def lexNumberFrac (txt value : String) (l : List Char) :
    Except LexError (Token × List Char) :=
  if getCh l 0 = '.' then
    if isNumberChar false (getCh l 1) then
      lexNumberExp (txt ++ "." ++ (readNumeric false (-1) (l.drop 1)).1)
        (value ++ "." ++ (readNumeric false (-1) (l.drop 1)).1) true
        (readNumeric false (-1) (l.drop 1)).2
    else
      match makeNumberToken txt value false false false with
      | .error e => .error e
      | .ok t => .ok (t, l)
  else lexNumberExp txt value false l

/-- `Lexer.lexNumber`: scans a numeric constant.  Mirrors the source: an
optional `~` (contributing `-` to the value string), then either a
`0w`/`0x`/`0wx` prefixed constant or a plain decimal with optional
fraction and exponent.  When the character after a `0w`/`0x` prefix is
not a fitting digit, the prefix letters are not part of the number. -/
def lexNumber (l0 : List Char) : Except LexError (Token × List Char) :=
  let negative := getCh l0 0 = '~'
  let txt0 : String := if negative then "~" else ""
  let value0 : String := if negative then "-" else ""
  let l1 := if negative then l0.drop 1 else l0
  if getCh l1 0 = '0' && (getCh l1 1 = 'w' || getCh l1 1 = 'x') then
    let txt1 := txt0.push '0'
    let l2 := l1.drop 1
    let word := getCh l2 0 = 'w'
    let hex := getCh l2 (if word then 1 else 0) = 'x'
    let off := if word && hex then 2 else 1
    if (negative && word) || !(isNumberChar hex (getCh l2 off)) then
      match makeNumberToken txt1 (value0 ++ "0") false false false with
      | .error e => .error e
      | .ok t => .ok (t, l2)
    else
      match makeNumberToken
          (txt1 ++ String.mk (l2.take off) ++ (readNumeric hex (-1) (l2.drop off)).1)
          (value0 ++ (readNumeric hex (-1) (l2.drop off)).1) false word hex with
      | .error e => .error e
      | .ok t => .ok (t, (readNumeric hex (-1) (l2.drop off)).2)
  else
    lexNumberFrac (txt0 ++ (readNumeric false (-1) l1).1)
      (value0 ++ (readNumeric false (-1) l1).1) (readNumeric false (-1) l1).2

/-- The comment-skipping loop of `Lexer.skipWhitespaceAndComments`:
`d` counts the currently open comments; fewer than two remaining
characters inside a comment is an `IncompleteError`.  Every iteration
consumes at least one character, so a fuel budget of the input length
plus one suffices and the fuel-exhaustion branch is unreachable. -/
def skipCommentBody (fuel : Nat) (d : Nat) (l : List Char) :
    Except LexError (List Char) :=
  match fuel with
  | 0 => .error (.internalError "fuel")
  | f + 1 =>
    match d with
    | 0 => .ok l
    | d + 1 =>
      if l.length < 2 then .error (.incompleteError "unclosed comment")
      else if getCh l 0 = '(' && getCh l 1 = '*' then
        skipCommentBody f (d + 2) (l.drop 2)
      else if getCh l 0 = '*' && getCh l 1 = ')' then
        skipCommentBody f d (l.drop 2)
      else skipCommentBody f (d + 1) (l.drop 1)

/-- `Lexer.skipWhitespaceAndComments`: repeatedly skips whitespace and
nested `(* ... *)` comments until no further progress is possible.
Every iteration consumes at least two characters, so a fuel budget of
the input length plus one suffices. -/
def skipWsCommentsF (fuel : Nat) (l : List Char) :
    Except LexError (List Char) :=
  match fuel with
  | 0 => .error (.internalError "fuel")
  | f + 1 =>
    let l1 := l.dropWhile isWhitespaceChar
    match l1 with
    | '(' :: '*' :: r =>
      match skipCommentBody (r.length + 1) 1 r with
      | .error e => .error e
      | .ok r2 => skipWsCommentsF f r2
    | _ => .ok l1

/-- Whitespace-and-comment skipping with its sufficient fuel budget. -/
def skipWsComments (l : List Char) : Except LexError (List Char) :=
  skipWsCommentsF (l.length + 1) l

/-- Lexer options (`allowUnicodeInStrings` is the only option the lexer
consults). -/
structure LexOptions where
  allowUnicodeInStrings : Bool := false
deriving Repr, DecidableEq

/-- The body loop of `Lexer.lexString`, after the opening quote: builds the
string value applying escape sequences, returning the value and the rest
after the closing quote.  Every iteration consumes at least one character,
so a fuel budget of the input length plus one suffices. -/
def lexStringBody (opts : LexOptions) (fuel : Nat) (l : List Char)
    (acc : String) : Except LexError (String × List Char) :=
  match fuel with
  | 0 => .error (.internalError "fuel")
  | fl + 1 =>
  match l with
  | [] => .error (.incompleteError "unterminated string")
  | '"' :: r => .ok (acc, r)
  | '\\' :: r =>
    if isWhitespaceChar (getCh r 0) then
      match r.dropWhile isWhitespaceChar with
      | '\\' :: r3 => lexStringBody opts fl r3 acc
      | _ :: _ => .error (.lexerError "non-whitespace in whitespace escape")
      | [] => .error (.incompleteError "unterminated whitespace escape sequence")
    else
      match r with
      | [] => .error (.incompleteError "")
      | c :: r2 =>
        if c = 'a' then lexStringBody opts fl r2 (acc.push (Char.ofNat 7))
        else if c = 'b' then lexStringBody opts fl r2 (acc.push (Char.ofNat 8))
        else if c = 't' then lexStringBody opts fl r2 (acc.push (Char.ofNat 9))
        else if c = 'n' then lexStringBody opts fl r2 (acc.push (Char.ofNat 10))
        else if c = 'v' then lexStringBody opts fl r2 (acc.push (Char.ofNat 11))
        else if c = 'f' then lexStringBody opts fl r2 (acc.push (Char.ofNat 12))
        else if c = 'r' then lexStringBody opts fl r2 (acc.push (Char.ofNat 13))
        else if c = '"' then lexStringBody opts fl r2 (acc.push '"')
        else if c = '\\' then lexStringBody opts fl r2 (acc.push '\\')
        else if c = '^' then
          match r2 with
          | [] => .error (.incompleteError "")
          | cc :: r3 =>
            if cc.toNat < 64 || cc.toNat > 95 then
              .error (.lexerError "not a valid control character")
            else lexStringBody opts fl r3 (acc.push (Char.ofNat (cc.toNat - 64)))
        else if c = 'u' then
          let pr := readNumeric true 4 r2
          if pr.1.length ≠ 4 then
            .error (.lexerError "unicode escape must consist of four digits")
          else
            let v := parseDigits 16 pr.1.toList
            if v ≥ 256 && !opts.allowUnicodeInStrings then
              .error (.lexerError "character code too large")
            else lexStringBody opts fl pr.2 (acc.push (Char.ofNat v))
        else if !(isNumberChar false c) then
          .error (.lexerError "invalid escape sequence")
        else
          let pr := readNumeric false 3 (c :: r2)
          if pr.1.length ≠ 3 then
            .error (.lexerError "numeric escape must consist of three digits")
          else
            let v := parseDigits 10 pr.1.toList
            if v ≥ 256 && !opts.allowUnicodeInStrings then
              .error (.lexerError "character code too large")
            else lexStringBody opts fl pr.2 (acc.push (Char.ofNat v))
  | c :: r =>
    let n := c.toNat
    if (n < 33 || n > 126) && n ≠ 32 && n < 128 then
      .error (.lexerError "string may not contain this character")
    else lexStringBody opts fl r (acc.push c)

/-- `Lexer.lexString`: scans a string constant starting at the opening
quote; the token text is the consumed source text including both quotes. -/
def lexString (opts : LexOptions) (l : List Char) :
    Except LexError (Token × List Char) :=
  match l with
  | '"' :: r =>
    match lexStringBody opts (r.length + 1) r "" with
    | .error e => .error e
    | .ok (v, rest) =>
      .ok (.stringConstantToken (String.mk (l.take (l.length - rest.length))) v, rest)
  | _ => .error (.internalError "lexString")

/-- `Lexer.lexCharacter`: a `#` followed by a string constant of length 1. -/
def lexCharacter (opts : LexOptions) (l : List Char) :
    Except LexError (Token × List Char) :=
  match l with
  | '#' :: r =>
    match lexString opts r with
    | .error e => .error e
    | .ok (.stringConstantToken text v, rest) =>
      if v.length ≠ 1 then
        .error (.lexerError "character constant must have length 1")
      else .ok (.characterConstantToken ("#" ++ text) (v.toList.headD ' '), rest)
    | .ok _ => .error (.internalError "lexCharacter")
  | _ => .error (.internalError "lexCharacter")

/-- Token classification at the end of `Lexer.lexIdentifierOrKeyword`:
reserved words, `*`, `=`, type variables (single or double prime), and
alphanumeric vs. symbolic identifiers. -/
def classifyIdentifier (tok rest : List Char) :
    Except LexError (Token × List Char) :=
  let token := String.mk tok
  if token = "*" then .ok (.starToken, rest)
  else if token = "=" then .ok (.equalsToken, rest)
  else if reservedWords.contains token then .ok (.keywordToken token, rest)
  else if getCh tok 0 = primeChar then
    if getCh tok 1 = primeChar then
      if tok.length = 2 then .error (.lexerError "invalid type variable")
      else .ok (.equalityTypeVariableToken token, rest)
    else
      if tok.length ≥ 2 then .ok (.typeVariableToken token, rest)
      else .error (.lexerError "invalid type variable")
  else if isAlphanumericChar (getCh tok 0) then
    .ok (.alphanumericIdentifierToken token, rest)
  else .ok (.identifierToken token, rest)

/-- `Lexer.lexIdentifierOrKeyword`: longest run of symbolic or alphanumeric
characters (an alphanumeric token may not start with a digit or `_`),
single-character reserved symbols, or `...`. -/
def lexIdentifierOrKeyword (l : List Char) :
    Except LexError (Token × List Char) :=
  let firstChar := getCh l 0
  if isSymbolicChar firstChar then
    classifyIdentifier (l.takeWhile isSymbolicChar) (l.dropWhile isSymbolicChar)
  else if isAlphanumericChar firstChar && !(isNumberChar false firstChar)
      && firstChar ≠ '_' then
    classifyIdentifier (l.takeWhile isAlphanumericChar)
      (l.dropWhile isAlphanumericChar)
  else if reservedWords.contains (String.mk [firstChar]) then
    .ok (.keywordToken (String.mk [firstChar]), l.drop 1)
  else if firstChar = '.' && getCh l 1 = '.' && getCh l 2 = '.' then
    .ok (.keywordToken "...", l.drop 3)
  else .error (.lexerError "invalid token")

/-- Whether a token may stand as the final part of a long identifier
(value identifiers, type constructors, `*`; type variables and `=` are
rejected). -/
def allowedLongFinal : Token → Bool
  | .identifierToken _ => true
  | .alphanumericIdentifierToken _ => true
  | .starToken => true
  | _ => false

/-- The qualifier loop of `Lexer.lexLongIdentifierOrKeyword`: consumes a
dot, requires the previous token to be an alphanumeric identifier, and
continues while further dots follow.  The fuel only bounds the loop; each
iteration consumes input, so a budget of the input length suffices. -/
def longLoop (fuel : Nat) (t : Token) (quals : List Token)
    (rest : List Char) : Except LexError (Token × List Token × List Char) :=
  match fuel with
  | 0 => .error (.internalError "fuel")
  | f + 1 =>
    match t with
    | .alphanumericIdentifierToken s =>
      match lexIdentifierOrKeyword (rest.drop 1) with
      | .error e => .error e
      | .ok (t2, r2) =>
        if getCh r2 0 = '.' then
          longLoop f t2 (quals ++ [.alphanumericIdentifierToken s]) r2
        else .ok (t2, quals ++ [.alphanumericIdentifierToken s], r2)
    | _ => .error (.lexerError "expected structure name before dot")

/-- `Lexer.lexLongIdentifierOrKeyword`: an identifier possibly continued by
dot-separated qualifiers; `...` immediately after an identifier is left in
the input. -/
def lexLongIdentifierOrKeyword (l : List Char) :
    Except LexError (Token × List Char) :=
  match lexIdentifierOrKeyword l with
  | .error e => .error e
  | .ok (t, rest) =>
    if getCh rest 0 = '.' && getCh rest 1 = '.' && getCh rest 2 = '.' then
      .ok (t, rest)
    else if getCh rest 0 ≠ '.' then
      .ok (t, rest)
    else
      match longLoop (rest.length + 1) t [] rest with
      | .error e => .error e
      | .ok (tf, quals, restF) =>
        if allowedLongFinal tf then
          .ok (.longIdentifierToken (String.mk (l.take (l.length - restF.length)))
            quals tf, restF)
        else .error (.lexerError "not allowed in a long identifier")

/-- `Lexer.nextToken`: dispatches on the first character(s) and then skips
trailing whitespace and comments. -/
def nextToken (opts : LexOptions) (l : List Char) :
    Except LexError (Token × List Char) :=
  match
    (if isNumberChar false (getCh l 0)
        || (getCh l 0 = '~' && isNumberChar false (getCh l 1)) then
      lexNumber l
    else if getCh l 0 = '"' then lexString opts l
    else if getCh l 0 = '#' && getCh l 1 = '"' then lexCharacter opts l
    else lexLongIdentifierOrKeyword l) with
  | .error e => .error e
  | .ok (t, rest) =>
    match skipWsComments rest with
    | .error e => .error e
    | .ok rest2 => .ok (t, rest2)

/-- The token loop of `lex`: scans tokens until the input is exhausted.
The fuel bounds the loop; every token consumes at least one character, so
a budget of the input length suffices. -/
def lexAll (opts : LexOptions) : Nat → List Char → Except LexError (List Token)
  | 0, _ => .error (.internalError "fuel")
  | _, [] => .ok []
  | f + 1, l =>
    match nextToken opts l with
    | .error e => .error e
    | .ok (t, r) =>
      match lexAll opts f r with
      | .error e => .error e
      | .ok ts => .ok (t :: ts)

/-- `lex`: the lexer entry point.  The constructor skips leading
whitespace and comments, then tokens are scanned until the end. -/
def lex (s : String) (opts : LexOptions := {}) : Except LexError (List Token) :=
  match skipWsComments s.toList with
  | .error e => .error e
  | .ok l => lexAll opts (l.length + 1) l

/-! ## Types, abstract syntax and the simplifier

The AST mirrors `expressions.ts` / `declarations.ts` / `types.ts`.
Declarations (`declarations.ts`) are part of the available sources and are
translated faithfully; source positions are not modelled, the declaration
`id` counters are.  The expression and type nodes with their `simplify`
methods live in files not available here and are modelled from the spec
(derived forms are lowered to the core calculus as described in §4.3).
-/

/-- Labels `1..n` given to tuple components when lowered to records. -/
def labelize {α : Type} (l : List α) : List (String × α) :=
  l.enum.map (fun p => (toString (p.1 + 1), p.2))

/-- Static types (`types.ts` vocabulary). -/
inductive Ty where
  | typeVariable (name : String) (isFree : Bool)
  | customType (name : String) (args : List Ty)
  | recordType (fields : List (String × Ty)) (complete : Bool)
  | functionType (dom cod : Ty)
  | tupleType (elems : List Ty)
deriving Repr

mutual

/-- Modelled from the spec: `Type.simplify` (from the missing `types.ts`):
a tuple type is sugar for a record type with labels `1..n`; all other
nodes simplify structurally. -/
def simplifyTy : Ty → Ty
  | .typeVariable n f => .typeVariable n f
  | .customType n args => .customType n (simplifyTyList args)
  | .recordType fields c => .recordType (simplifyTyFields fields) c
  | .functionType a b => .functionType (simplifyTy a) (simplifyTy b)
  | .tupleType es => .recordType (labelize (simplifyTyList es)) true

/-- Simplifies each type of a list. -/
def simplifyTyList : List Ty → List Ty
  | [] => []
  | t :: r => simplifyTy t :: simplifyTyList r

/-- Simplifies each type of a labelled field list. -/
def simplifyTyFields : List (String × Ty) → List (String × Ty)
  | [] => []
  | (n, t) :: r => (n, simplifyTy t) :: simplifyTyFields r

end

mutual

/-- Expressions and patterns (`expressions.ts` vocabulary; patterns and
expressions share nodes).  Constant nodes carry only their values; source
positions are not modelled.  A match (`Match`) is its list of
pattern/expression arms. -/
inductive Exp where
  | constantInt (value : Int)
  | constantWord (value : Int)
  | constantReal (text : String)
  | constantString (value : String)
  | constantChar (value : Char)
  | valueIdentifier (name : String)
  | record (complete : Bool) (entries : List (String × Exp))
  | recordSelector (label : String)
  | tuple (elems : List Exp)
  | listExp (elems : List Exp)
  | sequence (elems : List Exp)
  | localDeclarationExpression (dec : Dec) (body : Exp)
  | typedExpression (e : Exp) (ty : Ty)
  | conjunction (a b : Exp)
  | disjunction (a b : Exp)
  | conditional (c t e : Exp)
  | caseAnalysis (scrut : Exp) (arms : List (Exp × Exp))
  | raiseException (e : Exp)
  | handleException (e : Exp) (arms : List (Exp × Exp))
  | lambda (arms : List (Exp × Exp))
  | functionApplication (f a : Exp)
  | whileExp (cond body : Exp)
  | wildcard
  | layeredPattern (name : String) (ty : Option Ty) (pat : Exp)

/-- Declarations (`declarations.ts`).  Value bindings are triples
`(isRecursive, pattern, expression)`; function value bindings pair the
function name with its clauses `(patterns, optional type, body)`.  The
`withtype` field of `datatype`/`abstype` is omitted: the source
constructor throws `FeatureDisabledError` whenever it is present, so no
constructed declaration carries one.  The last `Nat` of each constructor
is the declaration id. -/
inductive Dec where
  | valueDec (tyVarSeq : List String) (valueBinding : List (Bool × Exp × Exp))
      (nid : Nat)
  | typeDec (typeBinding : List (List String × String × Ty)) (nid : Nat)
  | datatypeDec
      (datatypeBinding : List (List String × String × List (String × Option Ty)))
      (nid : Nat)
  | datatypeReplication (name oldname : String) (nid : Nat)
  | abstypeDec
      (datatypeBinding : List (List String × String × List (String × Option Ty)))
      (dec : Dec) (nid : Nat)
  | exceptionDec (bindings : List (String × Option Ty ⊕ String × String))
      (nid : Nat)
  | localDec (dec body : Dec) (nid : Nat)
  | openDec (names : List String) (nid : Nat)
  | emptyDec (nid : Nat)
  | sequentialDec (decs : List Dec) (nid : Nat)
  | functionDec (tyVarSeq : List String)
      (fvb : List (String × List (List Exp × Option Ty × Exp))) (nid : Nat)
  | infixDec (precedence : Int) (operators : List String) (nid : Nat)
  | infixrDec (precedence : Int) (operators : List String) (nid : Nat)
  | nonfixDec (operators : List String) (nid : Nat)

end

/-- `DatatypeBinding` simplification: the optional argument type of every
constructor is simplified (`DatatypeDeclaration.simplify`). -/
def simplifyDatBind (db : List String × String × List (String × Option Ty)) :
    List String × String × List (String × Option Ty) :=
  (db.1, db.2.1, db.2.2.map (fun c => (c.1, c.2.map simplifyTy)))

/-- Builds the lowering of a list literal from its (already simplified)
elements: `e1 :: e2 :: ... :: nil`, with `::` applied to a pair record. -/
def buildListExp : List Exp → Exp
  | [] => .valueIdentifier "nil"
  | e :: r =>
    .functionApplication (.valueIdentifier "::")
      (.record true [("1", e), ("2", buildListExp r)])

/-- The name of the `i`-th synthetic function-argument identifier
(`'__arg' + i` in `FunctionValueBinding.simplify`). -/
def argName (i : Nat) : String := "__arg" ++ toString i

/-- The synthetic argument identifiers `__arg0 ... __arg(n-1)`. -/
def argIds (n : Nat) : List Exp :=
  (List.range n).map (fun i => .valueIdentifier (argName i))

/-- The scrutinee pattern of the lowered function body: the lone argument
identifier for one parameter, otherwise the (simplified) tuple
`(__arg0, ..., __arg(n-1))`, which is a complete record with labels
`1..n`. -/
def argPat (n : Nat) : Exp :=
  if n = 1 then .valueIdentifier (argName 0)
  else .record true (labelize (argIds n))

/-- Wraps `e` into `n` lambdas: `fn __arg0 => ... fn __arg(n-1) => e`
(the loop of `FunctionValueBinding.simplify` that builds the lambdas from
the innermost outwards). -/
def lambdaChain : Nat → Exp → Exp
  | 0, e => e
  | i + 1, e => lambdaChain i (.lambda [(.valueIdentifier (argName i), e)])

/-- The number of parameters of a function value binding: the pattern
count of its first clause (`parameters[0][0].length`). -/
def numArgsOf (clauses : List (List Exp × Option Ty × Exp)) : Nat :=
  (clauses.headD ([], none, .wildcard)).1.length

mutual

/-- Modelled from the spec: `Expression.simplify` (from the missing
`expressions.ts`), lowering all derived forms to the core calculus per
§4.3: tuples become records labelled `1..n`, lists become `::`/`nil`
chains, sequences and conditionals become case analyses, `andalso` /
`orelse` become conditionals with a `false`/`true` literal, `while`
becomes a recursive `loop` binding, and record selectors become a lambda
over an open record pattern.  Core nodes simplify structurally. -/
def simplifyExp : Exp → Exp
  | .constantInt v => .constantInt v
  | .constantWord v => .constantWord v
  | .constantReal t => .constantReal t
  | .constantString v => .constantString v
  | .constantChar v => .constantChar v
  | .valueIdentifier n => .valueIdentifier n
  | .record c entries => .record c (simplifyEntries entries)
  | .recordSelector lab =>
    .lambda [(.record false [(lab, .valueIdentifier "__rs")],
      .valueIdentifier "__rs")]
  | .tuple es => .record true (labelize (simplifyExpList es))
  | .listExp es => buildListExp (simplifyExpList es)
  | .sequence es => simplifySeq es
  | .localDeclarationExpression d e =>
    .localDeclarationExpression (simplifyDec d) (simplifyExp e)
  | .typedExpression e t => .typedExpression (simplifyExp e) (simplifyTy t)
  | .conjunction a b =>
    .caseAnalysis (simplifyExp a)
      [(.valueIdentifier "true", simplifyExp b),
       (.valueIdentifier "false", .valueIdentifier "false")]
  | .disjunction a b =>
    .caseAnalysis (simplifyExp a)
      [(.valueIdentifier "true", .valueIdentifier "true"),
       (.valueIdentifier "false", simplifyExp b)]
  | .conditional c t e =>
    .caseAnalysis (simplifyExp c)
      [(.valueIdentifier "true", simplifyExp t),
       (.valueIdentifier "false", simplifyExp e)]
  | .caseAnalysis scrut arms =>
    .caseAnalysis (simplifyExp scrut) (simplifyArms arms)
  | .raiseException e => .raiseException (simplifyExp e)
  | .handleException e arms =>
    .handleException (simplifyExp e) (simplifyArms arms)
  | .lambda arms => .lambda (simplifyArms arms)
  | .functionApplication f a =>
    .functionApplication (simplifyExp f) (simplifyExp a)
  | .whileExp c b =>
    .localDeclarationExpression
      (.valueDec [] [(true, .valueIdentifier "loop",
        .lambda [(.record true [],
          .caseAnalysis (simplifyExp c)
            [(.valueIdentifier "true",
              .caseAnalysis (simplifyExp b)
                [(.wildcard,
                  .functionApplication (.valueIdentifier "loop")
                    (.record true []))]),
             (.valueIdentifier "false", .record true [])])])] 0)
      (.functionApplication (.valueIdentifier "loop") (.record true []))
  | .wildcard => .wildcard
  | .layeredPattern n t p =>
    .layeredPattern n (t.map simplifyTy) (simplifyExp p)
  termination_by e => sizeOf e

/-- Simplifies the entries of a record node. -/
def simplifyEntries : List (String × Exp) → List (String × Exp)
  | [] => []
  | (n, e) :: r => (n, simplifyExp e) :: simplifyEntries r
  termination_by l => sizeOf l

/-- Simplifies every expression of a list. -/
def simplifyExpList : List Exp → List Exp
  | [] => []
  | e :: r => simplifyExp e :: simplifyExpList r
  termination_by l => sizeOf l

/-- Simplifies the arms of a match. -/
def simplifyArms : List (Exp × Exp) → List (Exp × Exp)
  | [] => []
  | (p, e) :: r => (simplifyExp p, simplifyExp e) :: simplifyArms r
  termination_by l => sizeOf l

/-- The lowering of a sequence `(e1; ...; en)` into nested wildcard case
analyses preserving evaluation order (§4.3).  An empty sequence (not
producible by the parser) lowers to the unit record. -/
def simplifySeq : List Exp → Exp
  | [] => .record true []
  | [e] => simplifyExp e
  | e :: r => .caseAnalysis (simplifyExp e) [(.wildcard, simplifySeq r)]
  termination_by l => sizeOf l

/-- `ValueDeclaration.simplify`: simplifies pattern and expression of
every value binding. -/
def simplifyValBinds : List (Bool × Exp × Exp) → List (Bool × Exp × Exp)
  | [] => []
  | (isRec, p, e) :: r =>
    (isRec, simplifyExp p, simplifyExp e) :: simplifyValBinds r
  termination_by l => sizeOf l

/-- `FunctionValueBinding.simplify` for a list of function value bindings:
each becomes a recursive value binding of the function name to the lambda
chain ending in a case analysis over the tuple of the synthetic
arguments.  The source builds the unsimplified expression and calls
`simplify()` on it; here the construction is emitted with its parts
already simplified, which yields the same result (see
`simplifyExp_funBindRaw`). -/
def simplifyFvbs :
    List (String × List (List Exp × Option Ty × Exp)) →
      List (Bool × Exp × Exp)
  | [] => []
  | (name, clauses) :: r =>
    (true, .valueIdentifier name,
      lambdaChain (numArgsOf clauses)
        (.caseAnalysis (argPat (numArgsOf clauses)) (funCoreArms clauses)))
      :: simplifyFvbs r
  termination_by l => sizeOf l

/-- The (simplified) arms built from the clauses of a function value
binding: the clause patterns (tupled when there are several), against the
clause body, typed when the clause carries a type annotation. -/
def funCoreArms :
    List (List Exp × Option Ty × Exp) → List (Exp × Exp)
  | [] => []
  | ([p], oty, body) :: r =>
    (simplifyExp p,
     match oty with
     | none => simplifyExp body
     | some t => .typedExpression (simplifyExp body) (simplifyTy t))
      :: funCoreArms r
  | (pats, oty, body) :: r =>
    (.record true (labelize (simplifyExpList pats)),
     match oty with
     | none => simplifyExp body
     | some t => .typedExpression (simplifyExp body) (simplifyTy t))
      :: funCoreArms r
  termination_by l => sizeOf l

/-- `Declaration.simplify` over all declaration forms (`declarations.ts`):
value, type, datatype and abstype bindings simplify componentwise,
`local` and sequential declarations recurse, exception / replication /
open / empty / fixity declarations return themselves, and a `fun`
declaration becomes a `val` declaration of recursive bindings
(`FunctionDeclaration.simplify`). -/
def simplifyDec : Dec → Dec
  | .valueDec tvs vbs nid => .valueDec tvs (simplifyValBinds vbs) nid
  | .typeDec tbs nid =>
    .typeDec (tbs.map (fun tb => (tb.1, tb.2.1, simplifyTy tb.2.2))) nid
  | .datatypeDec dbs nid => .datatypeDec (dbs.map simplifyDatBind) nid
  | .datatypeReplication n o nid => .datatypeReplication n o nid
  | .abstypeDec dbs d nid =>
    .abstypeDec (dbs.map simplifyDatBind) (simplifyDec d) nid
  | .exceptionDec bs nid => .exceptionDec bs nid
  | .localDec d b nid => .localDec (simplifyDec d) (simplifyDec b) nid
  | .openDec ns nid => .openDec ns nid
  | .emptyDec nid => .emptyDec nid
  | .sequentialDec ds nid => .sequentialDec (simplifyDecList ds) nid
  | .functionDec tvs fvbs nid => .valueDec tvs (simplifyFvbs fvbs) nid
  | .infixDec p ops nid => .infixDec p ops nid
  | .infixrDec p ops nid => .infixrDec p ops nid
  | .nonfixDec ops nid => .nonfixDec ops nid
  termination_by d => sizeOf d

/-- Simplifies every declaration of a sequential declaration. -/
def simplifyDecList : List Dec → List Dec
  | [] => []
  | d :: r => simplifyDec d :: simplifyDecList r
  termination_by l => sizeOf l

end

/-! ## Values and state

Values follow `values.ts` (available in the sources).  The `State` class
(`state.ts`) is not among the available sources; it is modelled from the
spec (§3): a scope frame with a parent pointer and per-frame maps, where
lookups walk up the parent chain and writes go to the innermost frame.
Reals are carried as their source text (their IEEE-754 value is not
modelled); predefined functions are carried by name and applied through a
fixed table (host callbacks are not first-class here). -/

/-- Rebind protection status of an identifier (§3). -/
inductive RebindStatus where
  | allowed
  | never
deriving Repr, DecidableEq

/-- An entry of the fixity table (§3). -/
structure InfixStatus where
  precedence : Int
  rightAssoc : Bool
  infixed : Bool
deriving Repr, DecidableEq

/-- Interpreter-level errors thrown (as JS exceptions) during elaboration
and evaluation (`errors.ts` kinds).  `internalError` also covers the
unreachable fuel exhaustion of the evaluation loops. -/
inductive InterpError where
  | evaluationError (msg : String)
  | elaborationError (msg : String)
  | internalError (msg : String)
deriving Repr, DecidableEq

mutual

/-- Runtime values (`values.ts`).  `functionV` stores the captured state,
the recursive sibling bindings and the match body, as in `FunctionValue`. -/
inductive Value where
  | boolV (b : Bool)
  | charV (c : Char)
  | stringV (s : String)
  | wordV (n : Int)
  | integerV (n : Int)
  | realV (text : String)
  | recordV (entries : List (String × Value))
  | functionV (st : StateV) (recursives : List (String × Value))
      (body : List (Exp × Exp))
  | constructedV (name : String) (argument : Option Value) (cid : Nat)
  | exceptionV (name : String) (argument : Option Value) (cid : Nat)
  | predefinedV (name : String)
  | valueConstructorV (name : String) (numArgs : Nat) (cid : Nat)
  | exceptionConstructorV (name : String) (numArgs : Nat) (cid : Nat)

/-- Modelled from the spec: the `State` scope frame (`state.ts` is not in
the available sources).  Fields: parent frame, state id, dynamic value
and type environments, static value and type environments, rebind
statuses, value-identifier id counters and the fixity table. -/
inductive StateV where
  | mk (parent : Option StateV) (sid : Nat)
      (dynamicValues : List (String × Value))
      (dynamicTypes : List (String × List String))
      (staticValues : List (String × Ty))
      (staticTypes : List (String × List String))
      (rebinds : List (String × RebindStatus))
      (idCounters : List (String × Nat))
      (fixities : List (String × InfixStatus))

end

namespace StateV

/-- The parent frame. -/
def parentOf : StateV → Option StateV
  | .mk p _ _ _ _ _ _ _ _ => p

/-- The state id. -/
def sidOf : StateV → Nat
  | .mk _ sid _ _ _ _ _ _ _ => sid

/-- The dynamic value bindings of the innermost frame. -/
def dynValsOf : StateV → List (String × Value)
  | .mk _ _ dv _ _ _ _ _ _ => dv

/-- Modelled from the spec: `getNestedState` returns a fresh empty frame
whose parent is this state, carrying the given state id (the boolean
argument of the source call sites is not interpreted). -/
def getNestedState (st : StateV) (_keep : Bool) (newId : Nat) : StateV :=
  .mk (some st) newId [] [] [] [] [] [] []

/-- Replaces the parent of the innermost frame (used by
`LocalDeclaration.evaluate` to detach local definitions). -/
def withParent : StateV → StateV → StateV
  | .mk _ sid dv dt sv sty rb ic fx, p => .mk (some p) sid dv dt sv sty rb ic fx

/-- Inserts a dynamic value binding into the innermost frame (the raw
write, without rebind protection). -/
def insertDynVal : StateV → String → Value → StateV
  | .mk p sid dv dt sv sty rb ic fx, n, v =>
    .mk p sid ((n, v) :: dv) dt sv sty rb ic fx

/-- Modelled from the spec: dynamic value lookup walks up the parent
chain. -/
def getDynamicValue : StateV → String → Option Value
  | .mk none _ dv _ _ _ _ _ _, n => dv.lookup n
  | .mk (some par) _ dv _ _ _ _ _ _, n =>
    match dv.lookup n with
    | some v => some v
    | none => getDynamicValue par n

/-- Modelled from the spec: dynamic type lookup walks up the parent
chain. -/
def getDynamicType : StateV → String → Option (List String)
  | .mk none _ _ dt _ _ _ _ _, n => dt.lookup n
  | .mk (some par) _ _ dt _ _ _ _ _, n =>
    match dt.lookup n with
    | some v => some v
    | none => getDynamicType par n

/-- Sets a dynamic type in the innermost frame. -/
def setDynamicType : StateV → String → List String → StateV
  | .mk p sid dv dt sv sty rb ic fx, n, cs =>
    .mk p sid dv ((n, cs) :: dt) sv sty rb ic fx

/-- Static value lookup along the parent chain. -/
def getStaticValue : StateV → String → Option Ty
  | .mk none _ _ _ sv _ _ _ _, n => sv.lookup n
  | .mk (some par) _ _ _ sv _ _ _ _, n =>
    match sv.lookup n with
    | some v => some v
    | none => getStaticValue par n

/-- Sets a static value in the innermost frame. -/
def setStaticValue : StateV → String → Ty → StateV
  | .mk p sid dv dt sv sty rb ic fx, n, t =>
    .mk p sid dv dt ((n, t) :: sv) sty rb ic fx

/-- Static type lookup along the parent chain. -/
def getStaticType : StateV → String → Option (List String)
  | .mk none _ _ _ _ sty _ _ _, n => sty.lookup n
  | .mk (some par) _ _ _ _ sty _ _ _, n =>
    match sty.lookup n with
    | some v => some v
    | none => getStaticType par n

/-- Sets a static type in the innermost frame. -/
def setStaticType : StateV → String → List String → StateV
  | .mk p sid dv dt sv sty rb ic fx, n, cs =>
    .mk p sid dv dt sv ((n, cs) :: sty) rb ic fx

/-- Modelled from the spec: the rebind status of an identifier, walking
the parent chain; identifiers without an entry may be rebound. -/
def getRebindStatus : StateV → String → RebindStatus
  | .mk none _ _ _ _ _ rb _ _, n => (rb.lookup n).getD .allowed
  | .mk (some par) _ _ _ _ _ rb _ _, n =>
    match rb.lookup n with
    | some s => s
    | none => getRebindStatus par n

/-- Modelled from the spec: the value-identifier id counter for
constructor disambiguation, walking the parent chain (0 when absent). -/
def getValueIdentifierId : StateV → String → Nat
  | .mk none _ _ _ _ _ _ ic _, n => (ic.lookup n).getD 0
  | .mk (some par) _ _ _ _ _ _ ic _, n =>
    match ic.lookup n with
    | some i => i
    | none => getValueIdentifierId par n

/-- Writes an id counter entry into the innermost frame. -/
def insertIdCounter : StateV → String → Nat → StateV
  | .mk p sid dv dt sv sty rb ic fx, n, i =>
    .mk p sid dv dt sv sty rb ((n, i) :: ic) fx

/-- Modelled from the spec: increments the id counter of an identifier
(writing into the innermost frame). -/
def incrementValueIdentifierId (st : StateV) (n : String) : StateV :=
  st.insertIdCounter n (st.getValueIdentifierId n + 1)

/-- Sets the fixity of an identifier in the innermost frame
(`setInfixStatus`). -/
def setInfixStatus : StateV → String → Int → Bool → Bool → StateV
  | .mk p sid dv dt sv sty rb ic fx, n, prec, right, inf =>
    .mk p sid dv dt sv sty rb ic ((n, ⟨prec, right, inf⟩) :: fx)

/-- Modelled from the spec: `setDynamicValue` raises `EvaluationError`
when a binding would overwrite an identifier whose rebind status is
`Never` (§4.5 rebind protection).  The `bypass` flag mirrors the extra
argument passed by `FunctionValue.compute`, which re-adjoins recursive
bindings without the check. -/
def setDynamicValue (st : StateV) (n : String) (v : Value)
    (bypass : Bool := false) : Except InterpError StateV :=
  if !bypass && st.getRebindStatus n = .never then
    .error (.evaluationError ("cannot rebind " ++ n))
  else .ok (st.insertDynVal n v)

end StateV

/-- `Value.equals` dispatch (`values.ts`): per-class equality.  A receiver
without its own `equals` override (`FunctionValue`) throws
`InternalInterpreterError`.  `CharValue`/`StringValue` compare their
underlying strings (a char value is a one-character string in the
source).  The `RecordValue.equals` of the source passes its callback to
`Map.forEach`, whose result (`undefined`) makes the guard
`!this.entries.forEach(...)` always true, so record equality always
returns `false`.  `ConstructedValue.equals`/`ExceptionValue.equals`
return `true` when the receiver has an argument and the other does not. -/
def valueEquals : Value → Value → Except InterpError Bool
  | .boolV a, .boolV b => .ok (a == b)
  | .boolV _, _ => .ok false
  | .charV c, .charV d => .ok (c == d)
  | .charV c, .stringV s => .ok (String.mk [c] == s)
  | .charV _, _ => .ok false
  | .stringV s, .stringV t => .ok (s == t)
  | .stringV s, .charV d => .ok (s == String.mk [d])
  | .stringV _, _ => .ok false
  | .wordV a, .wordV b => .ok (a == b)
  | .wordV _, _ => .ok false
  | .integerV a, .integerV b => .ok (a == b)
  | .integerV _, _ => .ok false
  | .realV a, .realV b => .ok (a == b)
  | .realV _, _ => .ok false
  | .recordV _, _ => .ok false
  | .functionV _ _ _, _ => .error (.internalError "incomparable")
  | .constructedV n a i, .constructedV m b j =>
    if n ≠ m || i ≠ j then .ok false
    else
      match a, b with
      | some _, none => .ok true
      | some x, some y => valueEquals x y
      | none, o => .ok o.isNone
  | .constructedV _ _ _, _ => .ok false
  | .exceptionV n a i, .exceptionV m b j =>
    if n ≠ m || i ≠ j then .ok false
    else
      match a, b with
      | some _, none => .ok true
      | some x, some y => valueEquals x y
      | none, o => .ok o.isNone
  | .exceptionV _ _ _, _ => .ok false
  | .predefinedV n, .predefinedV m => .ok (n == m)
  | .predefinedV _, _ => .ok false
  | .valueConstructorV n _ i, .valueConstructorV m _ j =>
    .ok (n == m && i == j)
  | .valueConstructorV _ _ _, _ => .ok false
  | .exceptionConstructorV n _ i, .exceptionConstructorV m _ j =>
    .ok (n == m && i == j)
  | .exceptionConstructorV _ _ _, _ => .ok false

/-! ## Pattern matching and evaluation

Expression evaluation (`expressions.ts` is not among the available
sources) is modelled from the spec §4.5: a tree walk over the core
calculus returning `(value, threw)` pairs, where `threw` marks a raised
SML exception; interpreter errors are thrown (modelled with `Except`).
Declaration evaluation translates `declarations.ts` faithfully.  The
recursion is driven by a fuel counter; a sufficiently large budget makes
the fuel-exhaustion branch unreachable. -/

/-- Whether a stored value makes an identifier pattern a constant or
constructor pattern instead of a variable (constructed values, i.e.
booleans, constructed and exception values, and nullary constructors). -/
def isConstructorLike : Value → Bool
  | .boolV _ => true
  | .constructedV _ _ _ => true
  | .exceptionV _ _ _ => true
  | .valueConstructorV _ _ _ => true
  | .exceptionConstructorV _ _ _ => true
  | _ => false

mutual

/-- Modelled from the spec: pattern matching (§4.5).  Returns the list of
bindings on success.  An identifier pattern is a constructor or constant
pattern when the identifier resolves to a constructor or constructed
value in the state, and a variable binding otherwise; applied
constructor patterns require the same name and id and recurse on the
payload; record patterns require the value labels to include the pattern
labels, and to coincide when the pattern is complete. -/
def patternMatches (st : StateV) : Exp → Value → Option (List (String × Value))
  | .wildcard, _ => some []
  | .constantInt n, v =>
    match valueEquals (.integerV n) v with
    | .ok true => some []
    | _ => none
  | .constantWord n, v =>
    match valueEquals (.wordV n) v with
    | .ok true => some []
    | _ => none
  | .constantString s, v =>
    match valueEquals (.stringV s) v with
    | .ok true => some []
    | _ => none
  | .constantChar c, v =>
    match valueEquals (.charV c) v with
    | .ok true => some []
    | _ => none
  | .constantReal t, v =>
    match valueEquals (.realV t) v with
    | .ok true => some []
    | _ => none
  | .valueIdentifier name, v =>
    match st.getDynamicValue name with
    | some (.valueConstructorV n _ i) =>
      match v with
      | .constructedV vn none vi => if vn = n && vi = i then some [] else none
      | _ => none
    | some (.exceptionConstructorV n _ i) =>
      match v with
      | .exceptionV vn none vi => if vn = n && vi = i then some [] else none
      | _ => none
    | some sv =>
      if isConstructorLike sv then
        match valueEquals sv v with
        | .ok true => some []
        | _ => none
      else some [(name, v)]
    | none => some [(name, v)]
  | .record complete entries, v =>
    match v with
    | .recordV rentries =>
      match patternMatchesRecord st entries rentries with
      | none => none
      | some binds =>
        if complete
            && !(rentries.all (fun p => entries.any (fun q => q.1 = p.1))) then
          none
        else some binds
    | _ => none
  | .layeredPattern n _ p, v =>
    (patternMatches st p v).map (fun bs => (n, v) :: bs)
  | .typedExpression p _, v => patternMatches st p v
  | .functionApplication cpat apat, v =>
    match cpat with
    | .valueIdentifier cname =>
      match st.getDynamicValue cname with
      | some (.valueConstructorV n _ i) =>
        match v with
        | .constructedV vn (some a) vi =>
          if vn = n && vi = i then patternMatches st apat a else none
        | _ => none
      | some (.exceptionConstructorV n _ i) =>
        match v with
        | .exceptionV vn (some a) vi =>
          if vn = n && vi = i then patternMatches st apat a else none
        | _ => none
      | _ => none
    | _ => none
  | _, _ => none

/-- Matches the labelled sub-patterns of a record pattern against the
entries of a record value, concatenating the bindings. -/
def patternMatchesRecord (st : StateV) :
    List (String × Exp) → List (String × Value) →
      Option (List (String × Value))
  | [], _ => some []
  | (lab, p) :: r, rentries =>
    match rentries.lookup lab with
    | none => none
    | some v =>
      match patternMatches st p v, patternMatchesRecord st r rentries with
      | some bs, some rest => some (bs ++ rest)
      | _, _ => none

end

/-- The first arm of a match whose pattern matches the value, with its
bindings (`Match.compute` tries the arms in order). -/
def findMatchingArm (st : StateV) :
    List (Exp × Exp) → Value → Option (List (String × Value) × Exp)
  | [], _ => none
  | (p, b) :: r, v =>
    match patternMatches st p v with
    | some binds => some (binds, b)
    | none => findMatchingArm st r v

/-- Adjoins a binding fragment into a state frame. -/
def bindAll (st : StateV) (binds : List (String × Value)) : StateV :=
  binds.foldl (fun a p => a.insertDynVal p.1 p.2) st

/-- The sibling rebuilt by `FunctionValue.compute`: a sibling that is a
function value is reconstructed with the applied closure's captured state
and the full recursive group; other siblings are adjoined unchanged. -/
def rebuildSibling (cst : StateV) (recs : List (String × Value)) :
    Value → Value
  | .functionV _ _ b => .functionV cst recs b
  | v => v

/-- The state built by `FunctionValue.compute` before evaluating the match
body: every sibling of the recursive group is bound (bypassing rebind
protection, mirroring the extra `true` argument) in a fresh state nested
under the captured state. -/
def adjoinRecs (cst : StateV) (recs : List (String × Value))
    (nst : StateV) : StateV :=
  recs.foldl (fun acc nv => acc.insertDynVal nv.1 (rebuildSibling cst recs nv.2)) nst

/-- `Integer.add` (`values.ts`): plain addition, no bounds check. -/
def integerAdd (a b : Int) : Int := a + b

/-- `Integer.multiply` (`values.ts`): plain multiplication. -/
def integerMultiply (a b : Int) : Int := a * b

/-- `Integer.divide` (`values.ts`): `Math.floor(a / b)`, i.e. flooring
division (callers guard the zero divisor). -/
def integerDivide (a b : Int) : Int := Int.fdiv a b

/-- `Integer.modulo` (`values.ts`): the JS `%` operator, i.e. truncated
remainder (sign of the dividend). -/
def integerModulo (a b : Int) : Int := Int.tmod a b

/-- Modelled from the spec: the arithmetic wrappers installed by the
initial state (`initialState.ts` is not among the available sources).
`div` and `mod` raise the SML exception `Div` on a zero divisor; all five
operations raise `Overflow` when the result leaves `[MININT, MAXINT]`
(§4.5); the underlying arithmetic is `Integer`'s (`values.ts`). -/
def intArith (op : String) (a b : Int) : Value × Bool :=
  if (op = "div" || op = "mod") && b = 0 then
    (.exceptionV "Div" none 0, true)
  else
    let r : Int :=
      if op = "+" then integerAdd a b
      else if op = "-" then a - b
      else if op = "*" then integerMultiply a b
      else if op = "div" then integerDivide a b
      else if op = "mod" then integerModulo a b
      else 0
    if r > MAXINT || r < MININT then (.exceptionV "Overflow" none 0, true)
    else (.integerV r, false)

/-- Modelled from the spec: integer comparison wrappers of the initial
state. -/
def intCompare (op : String) (a b : Int) : Value × Bool :=
  if op = "<" then (.boolV (a < b), false)
  else if op = "<=" then (.boolV (a ≤ b), false)
  else if op = ">" then (.boolV (a > b), false)
  else (.boolV (a ≥ b), false)

/-- Modelled from the spec: application of a predefined (host) function of
the initial state to its argument; arithmetic and comparisons take a pair
record of integers, equality dispatches to `Value.equals`.  A wrongly
typed argument is an internal error (mirroring the `std type mismatch`
of the host callbacks). -/
def applyBuiltin (name : String) (arg : Value) :
    Except InterpError (Value × Bool) :=
  if name = "+" || name = "-" || name = "*" || name = "div"
      || name = "mod" then
    match arg with
    | .recordV [("1", .integerV a), ("2", .integerV b)] =>
      .ok (intArith name a b)
    | _ => .error (.internalError "std type mismatch")
  else if name = "<" || name = "<=" || name = ">" || name = ">=" then
    match arg with
    | .recordV [("1", .integerV a), ("2", .integerV b)] =>
      .ok (intCompare name a b)
    | _ => .error (.internalError "std type mismatch")
  else if name = "=" then
    match arg with
    | .recordV [("1", a), ("2", b)] => do
      let e ← valueEquals a b
      .ok (.boolV e, false)
    | _ => .error (.internalError "std type mismatch")
  else if name = "<>" then
    match arg with
    | .recordV [("1", a), ("2", b)] => do
      let e ← valueEquals a b
      .ok (.boolV (!e), false)
    | _ => .error (.internalError "std type mismatch")
  else .error (.internalError "unknown predefined function")

/-- The declaration id of a declaration node (`Declaration.id`), used by
`SequentialDeclaration.evaluate` for the nested state generations. -/
def Dec.nidOf : Dec → Nat
  | .valueDec _ _ n => n
  | .typeDec _ n => n
  | .datatypeDec _ n => n
  | .datatypeReplication _ _ n => n
  | .abstypeDec _ _ n => n
  | .exceptionDec _ n => n
  | .localDec _ _ n => n
  | .openDec _ n => n
  | .emptyDec n => n
  | .sequentialDec _ n => n
  | .functionDec _ _ n => n
  | .infixDec _ _ n => n
  | .infixrDec _ _ n => n
  | .nonfixDec _ n => n

/-- `DatatypeBinding.compute`: builds one `ValueConstructor` per clause,
reading and incrementing the per-identifier id counters, and returns the
value environment, the type entry and the updated state. -/
def datBindCompute (st : StateV)
    (db : List String × String × List (String × Option Ty)) :
    List (String × Value) × (String × List String) × StateV :=
  let step := db.2.2.foldl
    (fun (acc : List (String × Value) × List String × StateV) c =>
      let numArg : Nat := if c.2.isSome then 1 else 0
      let cid := acc.2.2.getValueIdentifierId c.1
      let st2 := acc.2.2.incrementValueIdentifierId c.1
      (acc.1 ++ [(c.1, .valueConstructorV c.1 numArg cid)],
        acc.2.1 ++ [c.1], st2))
    ([], [], st)
  (step.1, (db.2.1, step.2.1), step.2.2)

/-- Outcome of the binding-collection phase of
`ValueDeclaration.evaluate`. -/
inductive VBOut where
  | bindings (result recursives : List (String × Value))
  | thrown (e : Value)
  | bindFail

/-- The per-constructor loop of `DatatypeDeclaration.evaluate` over a
computed value environment: the rebind status of each constructor name is
checked (`EvaluationError` when `Never`) before the dynamic value is
set. -/
def applyConstructorBinds (st : StateV) :
    List (String × Value) → Except InterpError StateV
  | [] => .ok st
  | (n, v) :: r => do
    if st.getRebindStatus n = .never then
      .error (.evaluationError ("cannot rebind " ++ n))
    else do
      let st2 ← st.setDynamicValue n v
      applyConstructorBinds st2 r

/-- The first write-back loop of `ValueDeclaration.evaluate`: the
non-recursive results are bound via `setDynamicValue`. -/
def applyResultBinds (st : StateV) :
    List (String × Value) → Except InterpError StateV
  | [] => .ok st
  | (n, v) :: r => do
    let st2 ← st.setDynamicValue n v
    applyResultBinds st2 r

/-- The second write-back loop of `ValueDeclaration.evaluate`: recursive
bindings that are function values are rebuilt with the full recursive
group (keeping their own captured state) before being bound. -/
def applyRecursiveBinds (st : StateV) (recs : List (String × Value)) :
    List (String × Value) → Except InterpError StateV
  | [] => .ok st
  | (n, v) :: r => do
    let v2 :=
      match v with
      | .functionV cst _ body => Value.functionV cst recs body
      | w => w
    let st2 ← st.setDynamicValue n v2
    applyRecursiveBinds st2 recs r

/-- `DirectExceptionBinding.evaluate`: reads and increments the id
counter, then raises `EvaluationError` if the name is rebind-protected,
and otherwise binds the new exception constructor.  `ExceptionAlias
.evaluate`: copies the dynamic value of the old name
(`EvaluationError` when unbound). -/
def evalExcBinding (st : StateV) :
    (String × Option Ty) ⊕ (String × String) → Except InterpError StateV
  | .inl (name, oty) => do
    let numArg : Nat := if oty.isSome then 1 else 0
    let cid := st.getValueIdentifierId name
    let st1 := st.incrementValueIdentifierId name
    if st1.getRebindStatus name = .never then
      .error (.evaluationError ("cannot rebind " ++ name))
    else
      st1.setDynamicValue name (.exceptionConstructorV name numArg cid)
  | .inr (name, oldname) =>
    match st.getDynamicValue oldname with
    | none => .error (.evaluationError ("unbound value identifier " ++ oldname))
    | some v => st.setDynamicValue name v

/-- The loop of `ExceptionDeclaration.evaluate` over its bindings (the
per-binding evaluation never reports a thrown SML exception, so only the
state is threaded). -/
def evalExcBindings (st : StateV) :
    List ((String × Option Ty) ⊕ (String × String)) →
      Except InterpError StateV
  | [] => .ok st
  | b :: r => do
    let st2 ← evalExcBinding st b
    evalExcBindings st2 r

/-- The loop of `DatatypeDeclaration.evaluate` over its bindings:
each binding is computed, its constructors are bound under the rebind
check, and the datatype's dynamic type entry is set. -/
def evalDatatypeBindings (st : StateV) :
    List (List String × String × List (String × Option Ty)) →
      Except InterpError StateV
  | [] => .ok st
  | db :: r => do
    let (ve, tydef, st1) := datBindCompute st db
    let st2 ← applyConstructorBinds st1 ve
    evalDatatypeBindings (st2.setDynamicType tydef.1 tydef.2) r

/-- The loop of `AbstypeDeclaration.evaluate` over its bindings: like the
datatype loop but without the explicit rebind check and without setting
the dynamic type. -/
def evalAbstypeBindings (st : StateV) :
    List (List String × String × List (String × Option Ty)) →
      Except InterpError StateV
  | [] => .ok st
  | db :: r => do
    let (ve, _, st1) := datBindCompute st db
    let st2 ← applyResultBinds st1 ve
    evalAbstypeBindings st2 r

/-- The loop of the fixity declarations over their operators. -/
def applyInfixes (st : StateV) (prec : Int) (right inf : Bool) :
    List String → StateV
  | [] => st
  | n :: r => applyInfixes (st.setInfixStatus n prec right inf) prec right inf r

mutual

/-- Modelled from the spec: `Expression.compute` (§4.5), a tree walk over
the core calculus.  Returns `(value, threw)`; a true `threw` carries the
raised exception value.  Derived-form nodes are removed by simplification
and evaluate to an internal error. -/
def computeExp : Nat → StateV → Exp → Except InterpError (Value × Bool)
  | 0, _, _ => .error (.internalError "fuel")
  | f + 1, st, e =>
    match e with
    | .constantInt n => .ok (.integerV n, false)
    | .constantWord n => .ok (.wordV n, false)
    | .constantReal t => .ok (.realV t, false)
    | .constantString s => .ok (.stringV s, false)
    | .constantChar c => .ok (.charV c, false)
    | .valueIdentifier n =>
      match st.getDynamicValue n with
      | none => .error (.evaluationError ("unbound identifier " ++ n))
      | some (.valueConstructorV nm 0 i) => .ok (.constructedV nm none i, false)
      | some (.exceptionConstructorV nm 0 i) => .ok (.exceptionV nm none i, false)
      | some v => .ok (v, false)
    | .record _ entries => evalRecordEntries f st entries []
    | .lambda arms => .ok (.functionV st [] arms, false)
    | .functionApplication fe ae => do
      let (fv, t1) ← computeExp f st fe
      if t1 then .ok (fv, true)
      else do
        let (av, t2) ← computeExp f st ae
        if t2 then .ok (av, true)
        else applyValue f fv av
    | .typedExpression e2 _ => computeExp f st e2
    | .raiseException e2 => do
      let (v, _) ← computeExp f st e2
      .ok (v, true)
    | .handleException e2 arms => do
      let (v, t) ← computeExp f st e2
      if !t then .ok (v, false)
      else
        match findMatchingArm st arms v with
        | none => .ok (v, true)
        | some (binds, body) =>
          computeExp f (bindAll (st.getNestedState false st.sidOf) binds) body
    | .caseAnalysis scrut arms => do
      let (v, t) ← computeExp f st scrut
      if t then .ok (v, true)
      else computeMatch f st arms v
    | .localDeclarationExpression d e2 => do
      let (st2, t, exn) ← evaluateDec f (st.getNestedState false st.sidOf) d
      if t then .ok (exn.getD (.exceptionV "Bind" none 0), true)
      else computeExp f st2 e2
    | _ => .error (.internalError "not a core expression")

/-- Modelled from the spec: `Match.compute`: tries the arms in order,
evaluating the body of the first matching pattern with its bindings in a
nested state; no matching arm raises the `Match` exception. -/
def computeMatch (f : Nat) (st : StateV) (arms : List (Exp × Exp))
    (v : Value) : Except InterpError (Value × Bool) :=
  match f with
  | 0 => .error (.internalError "fuel")
  | f + 1 =>
    match findMatchingArm st arms v with
    | none => .ok (.exceptionV "Match" none 0, true)
    | some (binds, body) =>
      computeExp f (bindAll (st.getNestedState false st.sidOf) binds) body

/-- `FunctionValue.compute` (`values.ts`): adjoins the recursive group
(rebuilding function-value siblings with the captured state and the full
group) into a fresh state nested under the captured state, then computes
the match body on the argument. -/
def functionComputeF (f : Nat) (cst : StateV)
    (recs : List (String × Value)) (body : List (Exp × Exp)) (arg : Value) :
    Except InterpError (Value × Bool) :=
  match f with
  | 0 => .error (.internalError "fuel")
  | f + 1 =>
    computeMatch f (adjoinRecs cst recs (cst.getNestedState false cst.sidOf))
      body arg

/-- Modelled from the spec: application of an evaluated function value to
an evaluated argument: closures via `FunctionValue.compute`, predefined
functions via the builtin table, constructors build constructed and
exception values. -/
def applyValue (f : Nat) (fv arg : Value) :
    Except InterpError (Value × Bool) :=
  match f with
  | 0 => .error (.internalError "fuel")
  | f + 1 =>
    match fv with
    | .functionV cst recs body => functionComputeF f cst recs body arg
    | .predefinedV name => applyBuiltin name arg
    | .valueConstructorV n _ i => .ok (.constructedV n (some arg) i, false)
    | .exceptionConstructorV n _ i => .ok (.exceptionV n (some arg) i, false)
    | _ => .error (.evaluationError "cannot apply this value")

/-- Modelled from the spec: record expression evaluation in entry order,
propagating a thrown exception immediately. -/
def evalRecordEntries (f : Nat) (st : StateV)
    (entries : List (String × Exp)) (acc : List (String × Value)) :
    Except InterpError (Value × Bool) :=
  match f with
  | 0 => .error (.internalError "fuel")
  | f + 1 =>
    match entries with
    | [] => .ok (.recordV acc.reverse, false)
    | (n, e) :: r => do
      let (v, t) ← computeExp f st e
      if t then .ok (v, true)
      else evalRecordEntries f st r ((n, v) :: acc)

/-- The binding-collection loop of `ValueDeclaration.evaluate`: computes
each value binding (expression, then pattern match), propagating a
thrown exception or a `Bind` failure; bindings collect into `result`
until a recursive binding is seen and into `recursives` afterwards. -/
def collectValBinds (f : Nat) (st : StateV)
    (vbs : List (Bool × Exp × Exp)) (isRec : Bool)
    (res recs : List (String × Value)) : Except InterpError VBOut :=
  match f with
  | 0 => .error (.internalError "fuel")
  | f + 1 =>
    match vbs with
    | [] => .ok (.bindings res recs)
    | (isRecFlag, pat, exp) :: r => do
      let isRec2 := isRec || isRecFlag
      let (v, t) ← computeExp f st exp
      if t then .ok (.thrown v)
      else
        match patternMatches st pat v with
        | none => .ok .bindFail
        | some binds =>
          if isRec2 then collectValBinds f st r isRec2 res (recs ++ binds)
          else collectValBinds f st r isRec2 (res ++ binds) recs

/-- `Declaration.evaluate` over all declaration forms
(`declarations.ts`). -/
def evaluateDec : Nat → StateV → Dec → Except InterpError (StateV × Bool × Option Value)
  | 0, _, _ => .error (.internalError "fuel")
  | f + 1, st, d =>
    match d with
    | .valueDec _ vbs _ => do
      let out ← collectValBinds f st vbs false [] []
      match out with
      | .thrown e => .ok (st, true, some e)
      | .bindFail => .ok (st, true, some (.exceptionV "Bind" none 0))
      | .bindings res recs => do
        let st1 ← applyResultBinds st res
        let st2 ← applyRecursiveBinds st1 recs recs
        .ok (st2, false, none)
    | .typeDec tbs _ =>
      .ok (tbs.foldl (fun a tb => a.setDynamicType tb.2.1 []) st, false, none)
    | .datatypeDec dbs _ => do
      let st2 ← evalDatatypeBindings st dbs
      .ok (st2, false, none)
    | .datatypeReplication n o _ =>
      match st.getDynamicType o with
      | none => .error (.evaluationError ("datatype " ++ o ++ " does not exist"))
      | some cs => .ok (st.setDynamicType n cs, false, none)
    | .abstypeDec dbs inner _ => do
      let st2 ← evalAbstypeBindings st dbs
      evaluateDec f st2 inner
    | .exceptionDec bs _ => do
      let st2 ← evalExcBindings st bs
      .ok (st2, false, none)
    | .localDec decl body _ => do
      let nstate := st.getNestedState false st.sidOf
      let (st1, t, exn) ← evaluateDec f nstate decl
      if t then .ok (st, true, exn)
      else do
        let nstate2 := st1.getNestedState false st.sidOf
        let (st2, t2, exn2) ← evaluateDec f nstate2 body
        .ok (st2.withParent st, t2, exn2)
    | .openDec _ _ => .error (.internalError "open is not implemented")
    | .emptyDec _ => .ok (st, false, none)
    | .sequentialDec ds _ => evalSeqDecs f st ds
    | .functionDec _ _ _ => .error (.internalError "not yet implemented")
    | .infixDec p ops _ => .ok (applyInfixes st p false true ops, false, none)
    | .infixrDec p ops _ => .ok (applyInfixes st p true true ops, false, none)
    | .nonfixDec ops _ => .ok (applyInfixes st 0 false false ops, false, none)

/-- The loop of `SequentialDeclaration.evaluate`: each declaration is
evaluated in a state nested with its declaration id; a thrown result is
returned as-is (including its state). -/
def evalSeqDecs (f : Nat) (st : StateV) (ds : List Dec) :
    Except InterpError (StateV × Bool × Option Value) :=
  match f with
  | 0 => .error (.internalError "fuel")
  | f + 1 =>
    match ds with
    | [] => .ok (st, false, none)
    | d :: r => do
      let nstate := st.getNestedState true d.nidOf
      let res ← evaluateDec f nstate d
      if res.2.1 then .ok res
      else evalSeqDecs f res.1 r

end

/-! ## Elaboration (the implemented fragment), initial state, interpret -/

mutual

/-- Modelled from the spec: whether a type still contains type variables
(the `getTypeVariables`/`kill` check of `DirectExceptionBinding
.elaborate`, used for the `UnguardedTypeVariable` error). -/
def tyHasTypeVariables : Ty → Bool
  | .typeVariable _ _ => true
  | .customType _ args => tyListHasTypeVariables args
  | .recordType fields _ => tyFieldsHaveTypeVariables fields
  | .functionType a b => tyHasTypeVariables a || tyHasTypeVariables b
  | .tupleType es => tyListHasTypeVariables es
  termination_by t => sizeOf t

/-- Type-variable check over a list of types. -/
def tyListHasTypeVariables : List Ty → Bool
  | [] => false
  | t :: r => tyHasTypeVariables t || tyListHasTypeVariables r
  termination_by l => sizeOf l

/-- Type-variable check over labelled fields. -/
def tyFieldsHaveTypeVariables : List (String × Ty) → Bool
  | [] => false
  | (_, t) :: r => tyHasTypeVariables t || tyFieldsHaveTypeVariables r
  termination_by l => sizeOf l

end

/-- `ExceptionBinding.elaborate`: a direct binding with an argument type
rejects unguarded type variables and sets the static value to
`τ → exn` (or `exn` without an argument); an alias copies the static
value of the old name (`ElaborationError` when unbound). -/
def elabExcBinding (st : StateV) :
    (String × Option Ty) ⊕ (String × String) → Except InterpError StateV
  | .inl (name, oty) =>
    match oty with
    | some t =>
      if tyHasTypeVariables t then
        .error (.elaborationError "unguarded type variables")
      else
        .ok (st.setStaticValue name (.functionType (simplifyTy t) (.customType "exn" [])))
    | none => .ok (st.setStaticValue name (.customType "exn" []))
  | .inr (name, oldname) =>
    match st.getStaticValue oldname with
    | none => .error (.elaborationError ("unbound value identifier " ++ oldname))
    | some t => .ok (st.setStaticValue name t)

/-- The loop of `ExceptionDeclaration.elaborate`. -/
def elabExcBindings (st : StateV) :
    List ((String × Option Ty) ⊕ (String × String)) →
      Except InterpError StateV
  | [] => .ok st
  | b :: r => do
    let st2 ← elabExcBinding st b
    elabExcBindings st2 r

mutual

/-- `Declaration.elaborate` over the declaration forms, as far as
`declarations.ts` implements it (the value, type, datatype and abstype
cases are stubs returning the state unchanged; `open` and unsimplified
`fun` declarations throw `InternalInterpreterError`). -/
def elaborateDec (fuel : Nat) (st : StateV) (d : Dec) :
    Except InterpError StateV :=
  match fuel with
  | 0 => .error (.internalError "fuel")
  | f + 1 =>
    match d with
    | .valueDec _ _ _ => .ok st
    | .typeDec _ _ => .ok st
    | .datatypeDec _ _ => .ok st
    | .datatypeReplication n o _ =>
      match st.getStaticType o with
      | none => .error (.elaborationError ("the datatype " ++ o ++ " does not exist"))
      | some cs => .ok (st.setStaticType n cs)
    | .abstypeDec _ _ _ => .ok st
    | .exceptionDec bs _ => elabExcBindings st bs
    | .localDec decl body _ => do
      let nstate := st.getNestedState false st.sidOf
      let st1 ← elaborateDec f nstate decl
      let st2 ← elaborateDec f (st1.getNestedState false st.sidOf) body
      .ok (st2.withParent st)
    | .openDec _ _ => .error (.internalError "open is not implemented")
    | .emptyDec _ => .ok st
    | .sequentialDec ds _ => elabSeqDecs f st ds
    | .functionDec _ _ _ => .error (.internalError "not yet implemented")
    | .infixDec _ _ _ => .ok st
    | .infixrDec _ _ _ => .ok st
    | .nonfixDec _ _ => .ok st

/-- The loop of `SequentialDeclaration.elaborate`. -/
def elabSeqDecs (fuel : Nat) (st : StateV) (ds : List Dec) :
    Except InterpError StateV :=
  match fuel with
  | 0 => .error (.internalError "fuel")
  | f + 1 =>
    match ds with
    | [] => .ok st
    | d :: r => do
      let st1 ← elaborateDec f (st.getNestedState false d.nidOf) d
      elabSeqDecs f st1 r

end

/-- Modelled from the spec: the fragment of `getInitialState()`
(`initialState.ts` is not among the available sources) relevant to the
properties proved here: the boolean values, the list and `ref`
constructors, the built-in exception constructors, the arithmetic and
comparison operators as predefined functions, and the `Never` rebind
statuses of `true`, `false`, `nil`, `::` and `ref`. -/
def initialState : StateV :=
  .mk none 0
    [("true", .boolV true), ("false", .boolV false),
     ("nil", .valueConstructorV "nil" 0 0),
     ("::", .valueConstructorV "::" 1 0),
     ("ref", .valueConstructorV "ref" 1 0),
     ("Bind", .exceptionConstructorV "Bind" 0 0),
     ("Match", .exceptionConstructorV "Match" 0 0),
     ("Div", .exceptionConstructorV "Div" 0 0),
     ("Overflow", .exceptionConstructorV "Overflow" 0 0),
     ("Chr", .exceptionConstructorV "Chr" 0 0),
     ("Size", .exceptionConstructorV "Size" 0 0),
     ("Subscript", .exceptionConstructorV "Subscript" 0 0),
     ("Empty", .exceptionConstructorV "Empty" 0 0),
     ("Domain", .exceptionConstructorV "Domain" 0 0),
     ("+", .predefinedV "+"), ("-", .predefinedV "-"),
     ("*", .predefinedV "*"), ("div", .predefinedV "div"),
     ("mod", .predefinedV "mod"),
     ("<", .predefinedV "<"), ("<=", .predefinedV "<="),
     (">", .predefinedV ">"), (">=", .predefinedV ">="),
     ("=", .predefinedV "="), ("<>", .predefinedV "<>")]
    [("bool", ["true", "false"]), ("list", ["nil", "::"])]
    [] []
    [("true", .never), ("false", .never), ("nil", .never),
     ("::", .never), ("ref", .never)]
    [] []

/-- The result record of `interpret` (§6): the state handed back to the
caller, whether the chunk failed, and the uncaught exception value if
one reached the top level. -/
structure InterpOut where
  state : StateV
  errored : Bool
  exn : Option Value

/-- Modelled from the spec: the `interpret` entry point (`main.ts` is not
among the available sources).  The chunk is lexed, parsed (the parser,
also not among the sources, is a parameter with its §4.2 contract),
simplified, elaborated and evaluated on a state nested under the given
one; any failure — lexer, parser, elaboration, a thrown interpreter
error, or an uncaught SML exception at top level — returns the state the
caller passed in, so no effect of the failed chunk is observable (§5,
§7). -/
def interpret (parseFn : List Token → Except String Dec) (fuel : Nat)
    (source : String) (st : StateV) : InterpOut :=
  match lex source with
  | .error _ => ⟨st, true, none⟩
  | .ok toks =>
    match parseFn toks with
    | .error _ => ⟨st, true, none⟩
    | .ok d =>
      let core := simplifyDec d
      match elaborateDec fuel (st.getNestedState false st.sidOf) core with
      | .error _ => ⟨st, true, none⟩
      | .ok stE =>
        match evaluateDec fuel stE core with
        | .error _ => ⟨st, true, none⟩
        | .ok (_, true, exn) => ⟨st, true, exn⟩
        | .ok (st2, false, _) => ⟨st2, false, none⟩

/-- The unsimplified expression literally constructed by
`FunctionValueBinding.simplify` before its final `simplify()` call: the
clause matches (patterns tupled when there are several, bodies typed when
annotated), the case analysis over the (already simplified) tuple of the
synthetic arguments — or the lone argument identifier — and the
surrounding lambdas. -/
def funBindMatches (clauses : List (List Exp × Option Ty × Exp)) :
    List (Exp × Exp) :=
  clauses.map (fun c =>
    (if c.1.length = 1 then c.1.headD .wildcard else .tuple c.1,
     match c.2.1 with
     | none => c.2.2
     | some t => .typedExpression c.2.2 t))

/-- See `funBindMatches`: the full expression built by
`FunctionValueBinding.simplify` (on which the source calls
`simplify()`). -/
def funBindRaw (clauses : List (List Exp × Option Ty × Exp)) : Exp :=
  lambdaChain (numArgsOf clauses)
    (.caseAnalysis
      (if numArgsOf clauses ≠ 1 then
        simplifyExp (.tuple (argIds (numArgsOf clauses)))
       else .valueIdentifier (argName 0))
      (funBindMatches clauses))

/-- The integer bound invariant of numeric tokens: values of integer,
numeric and word constant tokens lie within `[MININT, MAXINT]` (trivial
for the other token kinds). -/
def tokenIntBounds : Token → Prop
  | .numericToken _ v => MININT ≤ v ∧ v ≤ MAXINT
  | .integerConstantToken _ v => MININT ≤ v ∧ v ≤ MAXINT
  | .wordConstantToken _ v => MININT ≤ v ∧ v ≤ MAXINT
  | _ => True

/-- A state frame nested under the initial state carrying an artificial
rebind-protected binding for the plain identifier `x` (the predefined
protected names are all constructors, which value patterns cannot bind,
so a plain protected variable exercises the rebind checks directly). -/
def wstC1 : StateV :=
  .mk (some initialState) 1 [] [] [] [] [("x", .never)] [] []

/-! ## Theorems -/

/-- C7: lexing `0w` with no digit after the `w` yields the integer
constant token `0` followed by the identifier token `w`, and lexing
`~0x` with no hexadecimal digit after the `x` yields the integer
constant token `~0` (of value 0) followed by the identifier token `x`. -/
theorem lex_bare_word_and_hex_prefixes :
    lex "0w" = .ok [.integerConstantToken "0" 0,
      .alphanumericIdentifierToken "w"]
    ∧ lex "~0x" = .ok [.integerConstantToken "~0" 0,
      .alphanumericIdentifierToken "x"] :=
  ⟨rfl, rfl⟩

/-- C10 counterexample: `ConstructedValue.equals` and
`ExceptionValue.equals` are not symmetric: with equal names and ids, a
receiver carrying an argument compares equal to a value without one, but
not conversely. -/
theorem constructed_equals_asymmetric_at_concrete_input :
    valueEquals (.constructedV "C" (some (.integerV 0)) 0)
        (.constructedV "C" none 0) = .ok true
    ∧ valueEquals (.constructedV "C" none 0)
        (.constructedV "C" (some (.integerV 0)) 0) = .ok false
    ∧ valueEquals (.exceptionV "E" (some (.integerV 0)) 0)
        (.exceptionV "E" none 0) = .ok true
    ∧ valueEquals (.exceptionV "E" none 0)
        (.exceptionV "E" (some (.integerV 0)) 0) = .ok false :=
  ⟨rfl, rfl, rfl, rfl⟩

/-- C10 (amended): for constructed values and exception values, `equals`
returns `true` exactly when the constructor names and ids agree and
either both arguments are absent, or the receiver's argument is present
and the other's is absent, or both arguments are present and recursively
equal.  (In particular `equals` is not symmetric in the mixed case.) -/
theorem constructed_and_exception_equals_characterization :
    ∀ (n1 n2 : String) (a1 a2 : Option Value) (i1 i2 : Nat),
      (valueEquals (.constructedV n1 a1 i1) (.constructedV n2 a2 i2) = .ok true ↔
        (n1 = n2 ∧ i1 = i2 ∧
          ((a1 = none ∧ a2 = none)
            ∨ (∃ x, a1 = some x ∧ a2 = none)
            ∨ (∃ x y, a1 = some x ∧ a2 = some y ∧ valueEquals x y = .ok true))))
      ∧ (valueEquals (.exceptionV n1 a1 i1) (.exceptionV n2 a2 i2) = .ok true ↔
        (n1 = n2 ∧ i1 = i2 ∧
          ((a1 = none ∧ a2 = none)
            ∨ (∃ x, a1 = some x ∧ a2 = none)
            ∨ (∃ x y, a1 = some x ∧ a2 = some y ∧ valueEquals x y = .ok true)))) := by
  intro n1 n2 a1 a2 i1 i2
  by_cases hn : n1 = n2 <;> by_cases hi : i1 = i2 <;>
    cases a1 <;> cases a2 <;>
    constructor <;> simp [valueEquals, hn, hi]

/-- C2: the integer operations `+`, `-`, `*`, `div`, `mod` raise the SML
exception `Overflow` whenever the result leaves `[MININT, MAXINT]`, and
`div` and `mod` raise `Div` on a zero divisor.  The result compared
against the bounds is the one `values.ts` computes (flooring division —
the mathematical SML `div` — and, for `mod`, the JS remainder).  The
operator wrappers are modelled from the spec, `initialState.ts` not
being among the available sources. -/
theorem integer_arith_overflow_and_div_by_zero :
    ∀ a b : Int,
      ((integerAdd a b > MAXINT ∨ integerAdd a b < MININT) →
        applyBuiltin "+" (.recordV [("1", .integerV a), ("2", .integerV b)]) =
          .ok (.exceptionV "Overflow" none 0, true))
      ∧ ((a - b > MAXINT ∨ a - b < MININT) →
        applyBuiltin "-" (.recordV [("1", .integerV a), ("2", .integerV b)]) =
          .ok (.exceptionV "Overflow" none 0, true))
      ∧ ((integerMultiply a b > MAXINT ∨ integerMultiply a b < MININT) →
        applyBuiltin "*" (.recordV [("1", .integerV a), ("2", .integerV b)]) =
          .ok (.exceptionV "Overflow" none 0, true))
      ∧ (b ≠ 0 →
        (integerDivide a b > MAXINT ∨ integerDivide a b < MININT) →
        applyBuiltin "div" (.recordV [("1", .integerV a), ("2", .integerV b)]) =
          .ok (.exceptionV "Overflow" none 0, true))
      ∧ (b ≠ 0 →
        (integerModulo a b > MAXINT ∨ integerModulo a b < MININT) →
        applyBuiltin "mod" (.recordV [("1", .integerV a), ("2", .integerV b)]) =
          .ok (.exceptionV "Overflow" none 0, true))
      ∧ (b = 0 →
        applyBuiltin "div" (.recordV [("1", .integerV a), ("2", .integerV b)]) =
          .ok (.exceptionV "Div" none 0, true))
      ∧ (b = 0 →
        applyBuiltin "mod" (.recordV [("1", .integerV a), ("2", .integerV b)]) =
          .ok (.exceptionV "Div" none 0, true)) := by
  intro a b
  refine ⟨?_, ?_, ?_, ?_, ?_, ?_, ?_⟩
  · intro h
    simp only [integerAdd] at h
    rcases h with h | h <;> simp [applyBuiltin, intArith, integerAdd, h]
  · intro h
    rcases h with h | h <;> simp [applyBuiltin, intArith, h]
  · intro h
    simp only [integerMultiply] at h
    rcases h with h | h <;> simp [applyBuiltin, intArith, integerMultiply, h]
  · intro hb h
    simp only [integerDivide] at h
    rcases h with h | h <;>
      simp [applyBuiltin, intArith, integerDivide, h, hb]
  · intro hb h
    simp only [integerModulo] at h
    rcases h with h | h <;>
      simp [applyBuiltin, intArith, integerModulo, h, hb]
  · intro hb
    subst hb
    rfl
  · intro hb
    subst hb
    rfl

/-- C2 witness: concrete operands triggering each overflow and each zero
divisor. -/
theorem integer_arith_overflow_and_div_by_zero_witness :
    applyBuiltin "+"
      (.recordV [("1", .integerV 1073741823), ("2", .integerV 1)]) =
        .ok (.exceptionV "Overflow" none 0, true)
    ∧ applyBuiltin "-"
      (.recordV [("1", .integerV (-1073741824)), ("2", .integerV 1)]) =
        .ok (.exceptionV "Overflow" none 0, true)
    ∧ applyBuiltin "*"
      (.recordV [("1", .integerV 1073741823), ("2", .integerV 4)]) =
        .ok (.exceptionV "Overflow" none 0, true)
    ∧ applyBuiltin "div"
      (.recordV [("1", .integerV (-1073741824)), ("2", .integerV (-1))]) =
        .ok (.exceptionV "Overflow" none 0, true)
    ∧ applyBuiltin "mod"
      (.recordV [("1", .integerV 2147483648), ("2", .integerV 2147483649)]) =
        .ok (.exceptionV "Overflow" none 0, true)
    ∧ applyBuiltin "div"
      (.recordV [("1", .integerV 1), ("2", .integerV 0)]) =
        .ok (.exceptionV "Div" none 0, true)
    ∧ applyBuiltin "mod"
      (.recordV [("1", .integerV 1), ("2", .integerV 0)]) =
        .ok (.exceptionV "Div" none 0, true) :=
  ⟨(integer_arith_overflow_and_div_by_zero 1073741823 1).1 (by decide),
   (integer_arith_overflow_and_div_by_zero (-1073741824) 1).2.1 (by decide),
   (integer_arith_overflow_and_div_by_zero 1073741823 4).2.2.1 (by decide),
   (integer_arith_overflow_and_div_by_zero (-1073741824) (-1)).2.2.2.1
     (by decide) (by decide),
   (integer_arith_overflow_and_div_by_zero 2147483648 2147483649).2.2.2.2.1
     (by decide) (by decide),
   (integer_arith_overflow_and_div_by_zero 1 0).2.2.2.2.2.1 rfl,
   (integer_arith_overflow_and_div_by_zero 1 0).2.2.2.2.2.2 rfl⟩

theorem makeNumberToken_bounds (tok v : String) (r w hx : Bool) (t : Token)
    (h : makeNumberToken tok v r w hx = .ok t) : tokenIntBounds t := by
  unfold makeNumberToken at h
  repeat' split at h
  all_goals cases h
  all_goals try trivial
  all_goals simp only [tokenIntBounds]
  all_goals omega

theorem lexNumberExp_bounds (txt v : String) (r : Bool) (l : List Char)
    (t : Token) (rest : List Char)
    (h : lexNumberExp txt v r l = .ok (t, rest)) : tokenIntBounds t := by
  unfold lexNumberExp at h
  repeat' split at h
  all_goals cases h
  all_goals try trivial
  all_goals (rename_i hm; exact makeNumberToken_bounds _ _ _ _ _ _ hm)

theorem lexNumberFrac_bounds (txt v : String) (l : List Char)
    (t : Token) (rest : List Char)
    (h : lexNumberFrac txt v l = .ok (t, rest)) : tokenIntBounds t := by
  unfold lexNumberFrac at h
  split at h
  · split at h
    · exact lexNumberExp_bounds _ _ _ _ _ _ h
    · split at h
      · cases h
      · rename_i hm
        cases h
        exact makeNumberToken_bounds _ _ _ _ _ _ hm
  · exact lexNumberExp_bounds _ _ _ _ _ _ h

theorem lexNumber_bounds (l : List Char) (t : Token) (rest : List Char)
    (h : lexNumber l = .ok (t, rest)) : tokenIntBounds t := by
  unfold lexNumber at h
  dsimp only at h
  repeat' split at h
  all_goals try cases h
  all_goals try trivial
  all_goals first
    | (rename_i hm; exact makeNumberToken_bounds _ _ _ _ _ _ hm)
    | exact lexNumberFrac_bounds _ _ _ _ _ h

theorem classifyIdentifier_bounds (tok rest : List Char) (t : Token)
    (r2 : List Char) (h : classifyIdentifier tok rest = .ok (t, r2)) :
    tokenIntBounds t := by
  unfold classifyIdentifier at h
  dsimp only at h
  repeat' split at h
  all_goals cases h
  all_goals trivial

theorem lexIdentifierOrKeyword_bounds (l : List Char) (t : Token)
    (rest : List Char) (h : lexIdentifierOrKeyword l = .ok (t, rest)) :
    tokenIntBounds t := by
  unfold lexIdentifierOrKeyword at h
  dsimp only at h
  repeat' split at h
  all_goals try (cases h; trivial)
  all_goals first
    | exact classifyIdentifier_bounds _ _ _ _ h
    | simp at h

theorem longLoop_bounds (fuel : Nat) :
    ∀ (t : Token) (quals : List Token) (rest : List Char) (tf : Token)
      (qf : List Token) (rf : List Char),
      longLoop fuel t quals rest = .ok (tf, qf, rf) → tokenIntBounds tf := by
  induction fuel with
  | zero => intro t quals rest tf qf rf h; cases h
  | succ f ih =>
    intro t quals rest tf qf rf h
    unfold longLoop at h
    split at h
    · split at h
      · cases h
      · rename_i hk
        split at h
        · exact ih _ _ _ _ _ _ h
        · cases h
          exact lexIdentifierOrKeyword_bounds _ _ _ hk
    · cases h

theorem lexLongIdentifierOrKeyword_bounds (l : List Char) (t : Token)
    (rest : List Char) (h : lexLongIdentifierOrKeyword l = .ok (t, rest)) :
    tokenIntBounds t := by
  unfold lexLongIdentifierOrKeyword at h
  split at h
  · cases h
  · rename_i hk
    split at h
    · cases h
      exact lexIdentifierOrKeyword_bounds _ _ _ hk
    · split at h
      · cases h
        exact lexIdentifierOrKeyword_bounds _ _ _ hk
      · split at h
        · cases h
        · split at h
          · cases h; trivial
          · cases h

theorem lexString_bounds (opts : LexOptions) (l : List Char) (t : Token)
    (rest : List Char) (h : lexString opts l = .ok (t, rest)) :
    tokenIntBounds t := by
  unfold lexString at h
  split at h
  · split at h
    · cases h
    · cases h; trivial
  · cases h

theorem lexCharacter_bounds (opts : LexOptions) (l : List Char) (t : Token)
    (rest : List Char) (h : lexCharacter opts l = .ok (t, rest)) :
    tokenIntBounds t := by
  unfold lexCharacter at h
  split at h
  · split at h
    · cases h
    · split at h
      · cases h
      · cases h; trivial
    · cases h
  · cases h

theorem nextToken_bounds (opts : LexOptions) (l : List Char) (t : Token)
    (rest : List Char) (h : nextToken opts l = .ok (t, rest)) :
    tokenIntBounds t := by
  unfold nextToken at h
  split at h
  · cases h
  · rename_i pr hfirst
    split at h
    · cases h
    · cases h
      split at hfirst
      · exact lexNumber_bounds _ _ _ hfirst
      · split at hfirst
        · exact lexString_bounds _ _ _ _ hfirst
        · split at hfirst
          · exact lexCharacter_bounds _ _ _ _ hfirst
          · exact lexLongIdentifierOrKeyword_bounds _ _ _ hfirst

theorem lexAll_bounds (opts : LexOptions) (fuel : Nat) :
    ∀ (l : List Char) (toks : List Token), lexAll opts fuel l = .ok toks →
      ∀ t ∈ toks, tokenIntBounds t := by
  induction fuel with
  | zero =>
    intro l toks h
    cases l <;> (simp only [lexAll] at h; cases h)
  | succ f ih =>
    intro l toks h
    match l with
    | [] =>
      simp only [lexAll] at h
      cases h
      intro t ht
      cases ht
    | c :: l2 =>
      simp only [lexAll] at h
      split at h
      · cases h
      · rename_i pr hn
        split at h
        · cases h
        · rename_i ts hr
          cases h
          intro t ht
          cases ht with
          | head => exact nextToken_bounds _ _ _ _ hn
          | tail _ ht2 => exact ih _ _ hr t ht2

/-- C6: every numeric constant produced by the lexer lies within
`[MININT, MAXINT]` — so an input containing a decimal, hexadecimal,
decimal word or hexadecimal word constant beyond the bounds cannot lex —
and concretely each of the four out-of-range constant forms (and the
negative decimal form) fails with a `LexerError`. -/
theorem numeric_constants_beyond_bounds_fail_lexing :
    (∀ (opts : LexOptions) (s : String) (toks : List Token),
      lex s opts = .ok toks → ∀ t ∈ toks, tokenIntBounds t)
    ∧ lex "1073741824" = .error (.lexerError "over MAXINT")
    ∧ lex "~1073741825" = .error (.lexerError "under MININT")
    ∧ lex "0x40000000" = .error (.lexerError "over MAXINT")
    ∧ lex "0w1073741824" = .error (.lexerError "over MAXINT")
    ∧ lex "0wx40000000" = .error (.lexerError "over MAXINT") := by
  refine ⟨?_, rfl, rfl, rfl, rfl, rfl⟩
  intro opts s toks h
  unfold lex at h
  split at h
  · cases h
  · exact lexAll_bounds _ _ _ _ h

/-- C6 witness: the bounds invariant applied to a concrete lexed input. -/
theorem numeric_constants_beyond_bounds_fail_lexing_witness :
    tokenIntBounds (Token.numericToken "12" 12) :=
  numeric_constants_beyond_bounds_fail_lexing.1 {} "ab 12"
    [.alphanumericIdentifierToken "ab", .numericToken "12" 12] rfl
    (.numericToken "12" 12) (by simp)

/-- C8 counterexample: an identifier token whose first two characters are
primes is not always lexed as an equality type variable token: the
two-character token consisting of exactly two primes fails with a
`LexerError`. -/
theorem lone_double_prime_fails_lexing :
    lex (String.mk [primeChar, primeChar]) =
      .error (.lexerError "invalid type variable") := rfl

theorem takeWhile_append_all (p : Char → Bool) (xs ys : List Char)
    (hall : ∀ c ∈ xs, p c) (hhead : ¬ p (getCh ys 0) = true) :
    (xs ++ ys).takeWhile p = xs ∧ (xs ++ ys).dropWhile p = ys := by
  induction xs with
  | nil =>
    simp only [List.nil_append]
    cases ys with
    | nil => simp [List.takeWhile, List.dropWhile]
    | cons c r =>
      simp only [getCh, List.getD] at hhead
      simp at hhead
      simp [List.takeWhile, List.dropWhile, hhead]
  | cons c r ih =>
    have hc : p c = true := hall c (by simp)
    have hr : ∀ x ∈ r, p x = true := fun x hx => hall x (by simp [hx])
    obtain ⟨h1, h2⟩ := ih hr
    simp [List.takeWhile, List.dropWhile, hc, h1, h2]

theorem no_reserved_word_starts_with_prime :
    ∀ w ∈ reservedWords, getCh w.toList 0 ≠ primeChar := by decide

/-- C8 (amended): a maximal alphanumeric token starting with a prime is
lexed as an equality type variable token exactly when its second
character is also a prime and its length is at least 3 (the bare
two-prime token fails with a `LexerError`); with a single leading prime
it is an ordinary type variable token exactly when its length is at
least 2, and a lone prime fails. -/
theorem prime_tokens_classification :
    ∀ (tok rest : List Char),
      tok ≠ [] →
      (∀ c ∈ tok, isAlphanumericChar c) →
      getCh tok 0 = primeChar →
      ¬ isAlphanumericChar (getCh rest 0) = true →
      lexIdentifierOrKeyword (tok ++ rest) =
        (if getCh tok 1 = primeChar then
          (if tok.length = 2 then .error (.lexerError "invalid type variable")
           else .ok (.equalityTypeVariableToken (String.mk tok), rest))
         else if tok.length ≥ 2 then
           .ok (.typeVariableToken (String.mk tok), rest)
         else .error (.lexerError "invalid type variable")) := by
  intro tok rest hne hall hfirst hrest
  have hfirstc : getCh (tok ++ rest) 0 = primeChar := by
    cases tok with
    | nil => exact absurd rfl hne
    | cons c r => simpa [getCh] using hfirst
  have hsym : isSymbolicChar primeChar = false := by decide
  have halnum : isAlphanumericChar primeChar = true := by decide
  have hnum : isNumberChar false primeChar = false := by decide
  have hund : primeChar ≠ '_' := by decide
  obtain ⟨htake, hdrop⟩ := takeWhile_append_all isAlphanumericChar tok rest hall hrest
  rw [lexIdentifierOrKeyword]
  rw [hfirstc, hsym]
  simp only [Bool.false_eq_true, if_false, halnum, hnum, hund]
  rw [if_pos (by simp [hund]), htake, hdrop]
  rw [classifyIdentifier]
  have hstar : ¬ (String.mk tok = "*") := by
    intro hcon
    have : tok = ['*'] := congrArg String.toList hcon
    rw [this] at hfirst
    exact absurd hfirst (by decide)
  have heq : ¬ (String.mk tok = "=") := by
    intro hcon
    have : tok = ['='] := congrArg String.toList hcon
    rw [this] at hfirst
    exact absurd hfirst (by decide)
  have hres : String.mk tok ∉ reservedWords := by
    intro hcon
    exact no_reserved_word_starts_with_prime _ hcon hfirst
  rw [if_neg hstar, if_neg heq, if_neg (by simpa using hres), if_pos hfirst]

/-- C8 witness: the classification applied at concrete prime-led tokens:
`'a` is an ordinary type variable, `''a` an equality type variable, and
the lone prime fails. -/
theorem prime_tokens_classification_witness :
    lexIdentifierOrKeyword ([primeChar, 'a'] ++ [' ']) =
      .ok (.typeVariableToken (String.mk [primeChar, 'a']), [' '])
    ∧ lexIdentifierOrKeyword ([primeChar, primeChar, 'a'] ++ []) =
      .ok (.equalityTypeVariableToken (String.mk [primeChar, primeChar, 'a']), [])
    ∧ lexIdentifierOrKeyword ([primeChar] ++ []) =
      .error (.lexerError "invalid type variable") := by
  refine ⟨?_, ?_, ?_⟩
  · have := prime_tokens_classification [primeChar, 'a'] [' ']
      (by decide) (by decide) (by decide) (by decide)
    simpa using this
  · have := prime_tokens_classification [primeChar, primeChar, 'a'] []
      (by decide) (by decide) (by decide) (by decide)
    simpa using this
  · have := prime_tokens_classification [primeChar] []
      (by decide) (by decide) (by decide) (by decide)
    simpa using this

theorem insertDynVal_lookup (st : StateV) (m n : String) (v : Value) :
    (st.insertDynVal m v).getDynamicValue n =
      if n = m then some v else st.getDynamicValue n := by
  cases st with
  | mk p sid dv dt sv sty rb ic fx =>
    cases p <;> by_cases h : n = m <;>
      first
        | (subst h
           simp [StateV.insertDynVal, StateV.getDynamicValue, List.lookup])
        | simp [StateV.insertDynVal, StateV.getDynamicValue, List.lookup, h,
            show (n == m) = false by simp [h]]

theorem insertDynVal_parent (st : StateV) (m : String) (v : Value) :
    (st.insertDynVal m v).parentOf = st.parentOf := by
  cases st
  rfl

theorem foldl_insert_lookup (g : String × Value → Value)
    (ins : List (String × Value)) (st0 : StateV) (n : String) :
    (ins.foldl (fun acc nv => acc.insertDynVal nv.1 (g nv)) st0).getDynamicValue n =
      (match ins.reverse.find? (fun nv => nv.1 == n) with
        | some nv => some (g nv)
        | none => st0.getDynamicValue n) := by
  induction ins generalizing st0 with
  | nil => simp
  | cons nv r ih =>
    simp only [List.foldl_cons, List.reverse_cons]
    rw [ih]
    rw [List.find?_append]
    cases hf : r.reverse.find? (fun nv => nv.1 == n) with
    | some m => simp [hf]
    | none =>
      simp only [hf, Option.none_orElse]
      rw [insertDynVal_lookup]
      by_cases he : nv.1 = n
      · simp [List.find?, he]
      · simp [List.find?, he, show (nv.1 == n) = false by simp [he]]
        intro hc
        exact absurd hc.symm he

theorem foldl_insert_parent (g : String × Value → Value)
    (ins : List (String × Value)) (st0 : StateV) :
    (ins.foldl (fun acc nv => acc.insertDynVal nv.1 (g nv)) st0).parentOf =
      st0.parentOf := by
  induction ins generalizing st0 with
  | nil => rfl
  | cons nv r ih => simp only [List.foldl_cons]; rw [ih, insertDynVal_parent]

/-- C5: `FunctionValue.compute` first builds a fresh state nested under
the captured state, re-binds in it every sibling of the recursive group
(rebuilding each function-value sibling with the captured state and the
full group), and only then evaluates the match body on the argument:
(i) the computation equals the match computation on the adjoined state;
(ii) that state is nested under the captured state; (iii) the binding
seen for a sibling name is its last entry of the group, rebuilt with the
full group, so mutually recursive calls resolve to their co-bindings;
(iv) other names resolve through the captured state. -/
theorem functionValue_compute_adjoins_recursive_group :
    ∀ (f : Nat) (cst : StateV) (recs : List (String × Value))
      (body : List (Exp × Exp)) (arg : Value),
      functionComputeF (f + 1) cst recs body arg =
        computeMatch f (adjoinRecs cst recs (cst.getNestedState false cst.sidOf))
          body arg
      ∧ (adjoinRecs cst recs (cst.getNestedState false cst.sidOf)).parentOf
          = some cst
      ∧ (∀ pre n v post, recs = pre ++ (n, v) :: post →
          n ∉ post.map Prod.fst →
          StateV.getDynamicValue
              (adjoinRecs cst recs (cst.getNestedState false cst.sidOf)) n
            = some (rebuildSibling cst recs v))
      ∧ (∀ n, n ∉ recs.map Prod.fst →
          StateV.getDynamicValue
              (adjoinRecs cst recs (cst.getNestedState false cst.sidOf)) n
            = cst.getDynamicValue n) := by
  intro f cst recs body arg
  refine ⟨rfl, ?_, ?_, ?_⟩
  · unfold adjoinRecs
    rw [foldl_insert_parent]
    rfl
  · intro pre n v post hsplit hnot
    unfold adjoinRecs
    rw [foldl_insert_lookup]
    have hfind : recs.reverse.find? (fun nv => nv.1 == n) = some (n, v) := by
      rw [hsplit]
      simp only [List.reverse_append, List.reverse_cons]
      rw [List.find?_append]
      have hpost : post.reverse.find? (fun nv => nv.1 == n) = none := by
        rw [List.find?_eq_none]
        intro x hx hp
        simp only [beq_iff_eq] at hp
        exact hnot (by
          rw [← hp]
          exact List.mem_map_of_mem Prod.fst (List.mem_reverse.mp hx))
      simp [List.find?_append, hpost, List.find?]
    rw [hfind]
  · intro n hnot
    unfold adjoinRecs
    rw [foldl_insert_lookup]
    have hfind : recs.reverse.find? (fun nv => nv.1 == n) = none := by
      rw [List.find?_eq_none]
      intro x hx hp
      simp only [beq_iff_eq] at hp
      exact hnot (by
        rw [← hp]
        exact List.mem_map_of_mem Prod.fst (List.mem_reverse.mp hx))
    rw [hfind]
    rfl

/-- C5 witness: a two-element mutually recursive group adjoined by a
concrete closure application: a sibling resolves to a function value
rebuilt with the full group, and an unrelated name falls through to the
captured state. -/
theorem functionValue_compute_adjoins_recursive_group_witness :
    functionComputeF 6 initialState
        [("f", .functionV initialState [] [(.wildcard, .constantInt 1)]),
         ("g", .functionV initialState [] [(.wildcard, .constantInt 2)])]
        [(.wildcard, .constantInt 0)] (.integerV 0) =
      computeMatch 5
        (adjoinRecs initialState
          [("f", .functionV initialState [] [(.wildcard, .constantInt 1)]),
           ("g", .functionV initialState [] [(.wildcard, .constantInt 2)])]
          (initialState.getNestedState false initialState.sidOf))
        [(.wildcard, .constantInt 0)] (.integerV 0)
    ∧ StateV.getDynamicValue
        (adjoinRecs initialState
          [("f", .functionV initialState [] [(.wildcard, .constantInt 1)]),
           ("g", .functionV initialState [] [(.wildcard, .constantInt 2)])]
          (initialState.getNestedState false initialState.sidOf)) "f" =
      some (.functionV initialState
        [("f", .functionV initialState [] [(.wildcard, .constantInt 1)]),
         ("g", .functionV initialState [] [(.wildcard, .constantInt 2)])]
        [(.wildcard, .constantInt 1)])
    ∧ StateV.getDynamicValue
        (adjoinRecs initialState
          [("f", .functionV initialState [] [(.wildcard, .constantInt 1)]),
           ("g", .functionV initialState [] [(.wildcard, .constantInt 2)])]
          (initialState.getNestedState false initialState.sidOf)) "nil" =
      initialState.getDynamicValue "nil" := by
  refine ⟨?_, ?_, ?_⟩
  · exact (functionValue_compute_adjoins_recursive_group 5 initialState _ _ _).1
  · exact (functionValue_compute_adjoins_recursive_group 5 initialState _
      [(.wildcard, .constantInt 0)] (.integerV 0)).2.2.1
      [] "f" (.functionV initialState [] [(.wildcard, .constantInt 1)])
      [("g", .functionV initialState [] [(.wildcard, .constantInt 2)])]
      rfl (by simp)
  · exact (functionValue_compute_adjoins_recursive_group 5 initialState _
      [(.wildcard, .constantInt 0)] (.integerV 0)).2.2.2
      "nil" (by simp)

theorem simplifyExpList_eq_map (es : List Exp) :
    simplifyExpList es = es.map simplifyExp := by
  induction es with
  | nil => simp [simplifyExpList]
  | cons e r ih => simp [simplifyExpList, ih]

theorem simplifyEntries_eq_map (l : List (String × Exp)) :
    simplifyEntries l = l.map (fun p => (p.1, simplifyExp p.2)) := by
  induction l with
  | nil => simp [simplifyEntries]
  | cons p r ih =>
    cases p
    simp [simplifyEntries, ih]

theorem simplifyArms_eq_map (l : List (Exp × Exp)) :
    simplifyArms l = l.map (fun p => (simplifyExp p.1, simplifyExp p.2)) := by
  induction l with
  | nil => simp [simplifyArms]
  | cons p r ih =>
    cases p
    simp [simplifyArms, ih]

theorem simplifyValBinds_eq_map (l : List (Bool × Exp × Exp)) :
    simplifyValBinds l =
      l.map (fun p => (p.1, simplifyExp p.2.1, simplifyExp p.2.2)) := by
  induction l with
  | nil => simp [simplifyValBinds]
  | cons p r ih =>
    obtain ⟨b, q, e⟩ := p
    simp [simplifyValBinds, ih]

theorem simplifyDecList_eq_map (l : List Dec) :
    simplifyDecList l = l.map simplifyDec := by
  induction l with
  | nil => simp [simplifyDecList]
  | cons d r ih => simp [simplifyDecList, ih]

theorem simplifyFvbs_eq_map
    (l : List (String × List (List Exp × Option Ty × Exp))) :
    simplifyFvbs l = l.map (fun fvb =>
      (true, Exp.valueIdentifier fvb.1,
        lambdaChain (numArgsOf fvb.2)
          (.caseAnalysis (argPat (numArgsOf fvb.2)) (funCoreArms fvb.2)))) := by
  induction l with
  | nil => simp [simplifyFvbs]
  | cons p r ih =>
    cases p
    simp [simplifyFvbs, ih]

theorem simplifyExpList_argIds (n : Nat) :
    simplifyExpList (argIds n) = argIds n := by
  rw [simplifyExpList_eq_map]
  unfold argIds
  rw [List.map_map]
  apply List.map_congr_left
  intro i _
  simp [Function.comp, simplifyExp]

theorem simplifyEntries_labelize (xs : List Exp) :
    simplifyEntries (labelize xs) = labelize (xs.map simplifyExp) := by
  rw [simplifyEntries_eq_map]
  unfold labelize
  rw [List.enum_map, List.map_map, List.map_map]
  rfl

theorem simplifyExp_argPat (n : Nat) :
    simplifyExp (argPat n) = argPat n := by
  unfold argPat
  by_cases h : n = 1
  · simp [h, simplifyExp]
  · rw [if_neg h]
    rw [show simplifyExp (.record true (labelize (argIds n))) =
      .record true (simplifyEntries (labelize (argIds n))) from by
        simp [simplifyExp]]
    rw [simplifyEntries_labelize, ← simplifyExpList_eq_map,
      simplifyExpList_argIds]

theorem simplifyExp_lambdaChain (n : Nat) :
    ∀ e, simplifyExp (lambdaChain n e) = lambdaChain n (simplifyExp e) := by
  induction n with
  | zero => intro e; rfl
  | succ i ih =>
    intro e
    rw [lambdaChain, lambdaChain, ih]
    congr 1
    simp [simplifyExp, simplifyArms]

theorem simplifyArms_funBindMatches
    (clauses : List (List Exp × Option Ty × Exp)) :
    simplifyArms (funBindMatches clauses) = funCoreArms clauses := by
  induction clauses with
  | nil => simp [funBindMatches, simplifyArms, funCoreArms]
  | cons c r ih =>
    obtain ⟨pats, oty, body⟩ := c
    match pats with
    | [p] =>
      cases oty <;>
        (simp [funBindMatches, simplifyArms, funCoreArms, simplifyExp] <;>
          simpa [funBindMatches] using ih)
    | [] =>
      cases oty <;>
        (simp [funBindMatches, simplifyArms, funCoreArms, simplifyExp,
          simplifyExpList, labelize] <;> simpa [funBindMatches] using ih)
    | p1 :: p2 :: ps =>
      cases oty <;>
        (simp [funBindMatches, simplifyArms, funCoreArms, simplifyExp,
          simplifyExpList_eq_map, labelize] <;>
          simpa [funBindMatches] using ih)

theorem simplifyExp_funBindRaw (clauses : List (List Exp × Option Ty × Exp)) :
    simplifyExp (funBindRaw clauses) =
      lambdaChain (numArgsOf clauses)
        (.caseAnalysis (argPat (numArgsOf clauses)) (funCoreArms clauses)) := by
  unfold funBindRaw
  rw [simplifyExp_lambdaChain]
  congr 1
  rw [show ∀ p m, simplifyExp (.caseAnalysis p m) =
      .caseAnalysis (simplifyExp p) (simplifyArms m) from fun p m => by
        simp [simplifyExp]]
  rw [simplifyArms_funBindMatches]
  congr 1
  by_cases h : numArgsOf clauses = 1
  · simp [h, simplifyExp, argPat]
  · rw [if_pos h]
    rw [show simplifyExp (.tuple (argIds (numArgsOf clauses))) =
      .record true (labelize (simplifyExpList (argIds (numArgsOf clauses))))
      from by simp [simplifyExp]]
    rw [simplifyExpList_argIds]
    have : Exp.record true (labelize (argIds (numArgsOf clauses))) =
        argPat (numArgsOf clauses) := by
      unfold argPat
      rw [if_neg h]
    rw [this, simplifyExp_argPat]

/-- C4: simplifying a `fun` declaration yields a `val` declaration in
which every function binding is marked recursive and binds the function
name to the simplification of the source-built expression — the chain of
`n` lambdas over the synthetic parameters `__arg0 … __arg(n-1)` ending in
a case analysis of the (record-lowered) tuple of those parameters against
the original (simplified) clauses. -/
theorem functionDec_simplifies_to_recursive_lambda_chain :
    ∀ (tvs : List String)
      (fvbs : List (String × List (List Exp × Option Ty × Exp))) (nid : Nat),
      simplifyDec (.functionDec tvs fvbs nid) =
        .valueDec tvs (fvbs.map (fun fvb =>
          (true, Exp.valueIdentifier fvb.1, simplifyExp (funBindRaw fvb.2)))) nid
      ∧ simplifyDec (.functionDec tvs fvbs nid) =
        .valueDec tvs (fvbs.map (fun fvb =>
          (true, Exp.valueIdentifier fvb.1,
            lambdaChain (numArgsOf fvb.2)
              (.caseAnalysis (argPat (numArgsOf fvb.2))
                (funCoreArms fvb.2))))) nid := by
  intro tvs fvbs nid
  have hmain : simplifyDec (.functionDec tvs fvbs nid) =
      .valueDec tvs (fvbs.map (fun fvb =>
        (true, Exp.valueIdentifier fvb.1,
          lambdaChain (numArgsOf fvb.2)
            (.caseAnalysis (argPat (numArgsOf fvb.2))
              (funCoreArms fvb.2))))) nid := by
    rw [show simplifyDec (.functionDec tvs fvbs nid) =
      .valueDec tvs (simplifyFvbs fvbs) nid from by simp [simplifyDec]]
    rw [simplifyFvbs_eq_map]
  refine ⟨?_, hmain⟩
  rw [hmain]
  congr 1
  apply List.map_congr_left
  intro fvb _
  rw [simplifyExp_funBindRaw]

theorem simplifyTyList_eq_map (l : List Ty) :
    simplifyTyList l = l.map simplifyTy := by
  induction l with
  | nil => simp [simplifyTyList]
  | cons t r ih => simp [simplifyTyList, ih]

theorem simplifyTyFields_eq_map (l : List (String × Ty)) :
    simplifyTyFields l = l.map (fun p => (p.1, simplifyTy p.2)) := by
  induction l with
  | nil => simp [simplifyTyFields]
  | cons p r ih =>
    cases p
    simp [simplifyTyFields, ih]

theorem simplifyTyFields_labelize (xs : List Ty) :
    simplifyTyFields (labelize xs) = labelize (xs.map simplifyTy) := by
  rw [simplifyTyFields_eq_map]
  unfold labelize
  rw [List.enum_map, List.map_map, List.map_map]
  rfl

theorem simplifyTy_idem :
    ∀ t, simplifyTy (simplifyTy t) = simplifyTy t := by
  apply simplifyTy.induct
    (fun t => simplifyTy (simplifyTy t) = simplifyTy t)
    (fun l => simplifyTyFields (simplifyTyFields l) = simplifyTyFields l)
    (fun l => simplifyTyList (simplifyTyList l) = simplifyTyList l)
  · intro n f
    simp [simplifyTy]
  · intro n args ih
    simp [simplifyTy, ih]
  · intro fields c ih
    simp [simplifyTy, ih]
  · intro a b iha ihb
    simp [simplifyTy, iha, ihb]
  · intro es ih
    rw [show simplifyTy (.tupleType es) =
      .recordType (labelize (simplifyTyList es)) true from by simp [simplifyTy]]
    rw [show ∀ l c, simplifyTy (.recordType l c) =
      .recordType (simplifyTyFields l) c from fun l c => by simp [simplifyTy]]
    rw [simplifyTyFields_labelize, ← simplifyTyList_eq_map, ih]
  · simp [simplifyTyList]
  · intro t r ih1 ih2
    simp [simplifyTyList, ih1, ih2]
  · simp [simplifyTyFields]
  · intro n t r ih1 ih2
    simp [simplifyTyFields, ih1, ih2]

theorem simplifyDatBind_idem
    (db : List String × String × List (String × Option Ty)) :
    simplifyDatBind (simplifyDatBind db) = simplifyDatBind db := by
  obtain ⟨tvs, name, cons⟩ := db
  simp [simplifyDatBind, List.map_map]
  intro a b _
  cases b <;> simp [Function.comp, simplifyTy_idem]

theorem simplifyExp_buildListExp (xs : List Exp) :
    simplifyExp (buildListExp xs) = buildListExp (xs.map simplifyExp) := by
  induction xs with
  | nil => simp [buildListExp, simplifyExp]
  | cons e r ih => simp [buildListExp, simplifyExp, simplifyEntries, ih]

/-- C9: simplification of declarations is idempotent — applying
`Declaration.simplify` twice gives the result of applying it once.  The
proof is a joint induction with the matching idempotence statements for
expressions, matches, record entries, sequences, value bindings and
function value bindings. -/
theorem simplification_idempotent_on_declarations :
    ∀ d, simplifyDec (simplifyDec d) = simplifyDec d := by
  apply simplifyDec.induct
    (fun e => simplifyExp (simplifyExp e) = simplifyExp e)
    (fun l => simplifyArms (simplifyArms l) = simplifyArms l)
    (fun d => simplifyDec (simplifyDec d) = simplifyDec d)
    (fun l => simplifyValBinds (simplifyFvbs l) = simplifyFvbs l)
    (fun l => simplifyArms (funCoreArms l) = funCoreArms l)
    (fun l => simplifyExpList (simplifyExpList l) = simplifyExpList l)
    (fun l => simplifyDecList (simplifyDecList l) = simplifyDecList l)
    (fun l => simplifyValBinds (simplifyValBinds l) = simplifyValBinds l)
    (fun l => simplifyExp (simplifySeq l) = simplifySeq l)
    (fun l => simplifyEntries (simplifyEntries l) = simplifyEntries l)
  · intro v
    simp [simplifyExp]
  · intro v
    simp [simplifyExp]
  · intro t
    simp [simplifyExp]
  · intro v
    simp [simplifyExp]
  · intro v
    simp [simplifyExp]
  · intro n
    simp [simplifyExp]
  · intro c entries ih
    simp [simplifyExp, ih]
  · intro lab
    simp [simplifyExp, simplifyArms, simplifyEntries]
  · intro es ih
    simp only [simplifyExp]
    rw [simplifyEntries_labelize, ← simplifyExpList_eq_map, ih]
  · intro es ih
    simp only [simplifyExp]
    rw [simplifyExp_buildListExp, ← simplifyExpList_eq_map, ih]
  · intro es ih
    simp only [simplifyExp]
    exact ih
  · intro d e ihd ihe
    simp [simplifyExp, ihd, ihe]
  · intro e t ih
    simp [simplifyExp, ih, simplifyTy_idem]
  · intro a b iha ihb
    simp [simplifyExp, simplifyArms, iha, ihb]
  · intro a b iha ihb
    simp [simplifyExp, simplifyArms, iha, ihb]
  · intro c t e ihc iht ihe
    simp [simplifyExp, simplifyArms, ihc, iht, ihe]
  · intro scrut arms ih1 ih2
    simp [simplifyExp, ih1, ih2]
  · intro e ih
    simp [simplifyExp, ih]
  · intro e arms ih1 ih2
    simp [simplifyExp, ih1, ih2]
  · intro arms ih
    simp [simplifyExp, ih]
  · intro f a ih1 ih2
    simp [simplifyExp, ih1, ih2]
  · intro c b ihc ihb
    simp [simplifyExp, simplifyArms, simplifyDec, simplifyValBinds,
      simplifyEntries, ihc, ihb]
  · simp [simplifyExp]
  · intro n t p ih
    cases t <;> simp [simplifyExp, ih, simplifyTy_idem]
  · simp [simplifyArms]
  · intro p e r ih1 ih2 ih3
    simp [simplifyArms, ih1, ih2, ih3]
  · intro tvs vbs nid ih
    simp [simplifyDec, ih]
  · intro tbs nid
    simp only [simplifyDec, List.map_map]
    congr 1
    apply List.map_congr_left
    intro tb _
    simp [Function.comp, simplifyTy_idem]
  · intro dbs nid
    simp [simplifyDec, List.map_map]
    intro a b c _
    exact simplifyDatBind_idem (a, b, c)
  · intro n o nid
    simp [simplifyDec]
  · intro dbs d nid ih
    simp [simplifyDec, ih, List.map_map]
    intro a b c _
    exact simplifyDatBind_idem (a, b, c)
  · intro bs nid
    simp [simplifyDec]
  · intro d b nid ih1 ih2
    simp [simplifyDec, ih1, ih2]
  · intro ns nid
    simp [simplifyDec]
  · intro nid
    simp [simplifyDec]
  · intro ds nid ih
    simp [simplifyDec, ih]
  · intro tvs fvbs nid ih
    simp [simplifyDec, ih]
  · intro p ops nid
    simp [simplifyDec]
  · intro p ops nid
    simp [simplifyDec]
  · intro ops nid
    simp [simplifyDec]
  · simp [simplifyFvbs, simplifyValBinds]
  · intro name clauses r ih1 ih2
    simp [simplifyFvbs, simplifyValBinds, simplifyExp_lambdaChain,
      simplifyExp, simplifyExp_argPat, ih1, ih2]
  · simp [funCoreArms, simplifyArms]
  · intro p oty body r ihp ihb ihr
    cases oty <;>
      simp [funCoreArms, simplifyArms, simplifyExp, ihp, ihb, ihr,
        simplifyTy_idem]
  · intro pats oty body r h ihl ihb ihr
    match pats with
    | [] =>
      cases oty <;>
        simp_all [funCoreArms, simplifyArms, simplifyExp, simplifyEntries,
          simplifyEntries_labelize, simplifyExpList_eq_map, simplifyTy_idem,
          labelize]
    | p1 :: p2 :: ps =>
      cases oty <;>
        simp_all [funCoreArms, simplifyArms, simplifyExp, simplifyEntries,
          simplifyEntries_labelize, simplifyExpList_eq_map, simplifyTy_idem]
      all_goals
        rw [show List.map (simplifyExp ∘ simplifyExp) ps =
            List.map simplifyExp ps from by
          apply List.map_congr_left
          intro x hx
          simp only [Function.comp_apply]
          exact ihl.2.2 x hx]
    | [p] => exact absurd rfl (h p)
  · simp [simplifyExpList]
  · intro e r ih1 ih2
    simp [simplifyExpList, ih1, ih2]
  · simp [simplifyDecList]
  · intro d r ih1 ih2
    simp [simplifyDecList, ih1, ih2]
  · simp [simplifyValBinds]
  · intro isRec p e r ih1 ih2 ih3
    simp [simplifyValBinds, ih1, ih2, ih3]
  · simp [simplifySeq, simplifyExp, simplifyEntries]
  · intro e ih
    simp only [simplifySeq]
    exact ih
  · intro e r h ihe ihr
    match r with
    | [] => exact absurd rfl h
    | x :: xs =>
      simp only [simplifySeq, simplifyExp, simplifyArms] at ihr ⊢
      simp [simplifySeq, simplifyExp, simplifyArms, ihe, ihr]
  · simp [simplifyEntries]
  · intro n e r ihe ihr
    simp [simplifyEntries, ihe, ihr]

theorem getRebindStatus_insertDynVal (st : StateV) (n : String) (v : Value)
    (m : String) :
    StateV.getRebindStatus (st.insertDynVal n v) m = st.getRebindStatus m := by
  cases st with
  | mk p sid dv dt sv sty rb ic fx => cases p <;> rfl

theorem getRebindStatus_setDynamicType (st : StateV) (n : String)
    (cs : List String) (m : String) :
    StateV.getRebindStatus (st.setDynamicType n cs) m =
      st.getRebindStatus m := by
  cases st with
  | mk p sid dv dt sv sty rb ic fx => cases p <;> rfl

theorem getRebindStatus_insertIdCounter (st : StateV) (n : String) (i : Nat)
    (m : String) :
    StateV.getRebindStatus (st.insertIdCounter n i) m =
      st.getRebindStatus m := by
  cases st with
  | mk p sid dv dt sv sty rb ic fx => cases p <;> rfl

theorem getRebindStatus_incrementValueIdentifierId (st : StateV) (n m : String) :
    StateV.getRebindStatus (st.incrementValueIdentifierId n) m =
      st.getRebindStatus m := by
  unfold StateV.incrementValueIdentifierId
  exact getRebindStatus_insertIdCounter st n _ m

theorem setDynamicValue_never {st : StateV} {n : String} (v : Value)
    (h : st.getRebindStatus n = .never) :
    st.setDynamicValue n v =
      .error (.evaluationError ("cannot rebind " ++ n)) := by
  unfold StateV.setDynamicValue
  simp [h]

theorem setDynamicValue_not_never {st : StateV} {n : String} (v : Value)
    (h : ¬st.getRebindStatus n = .never) :
    st.setDynamicValue n v = .ok (st.insertDynVal n v) := by
  unfold StateV.setDynamicValue
  simp [h]

theorem setDynamicValue_error_form {st : StateV} {n : String} {v : Value}
    {b : Bool} {e : InterpError} (h : st.setDynamicValue n v b = .error e) :
    ∃ msg, e = .evaluationError msg := by
  unfold StateV.setDynamicValue at h
  split at h
  · cases h
    exact ⟨_, rfl⟩
  · cases h

theorem setDynamicValue_ok_rebind {st st' : StateV} {n : String} {v : Value}
    {b : Bool} (h : st.setDynamicValue n v b = .ok st') (m : String) :
    st'.getRebindStatus m = st.getRebindStatus m := by
  unfold StateV.setDynamicValue at h
  split at h
  · cases h
  · cases h
    exact getRebindStatus_insertDynVal st n v m

theorem applyResultBinds_error_form :
    ∀ (l : List (String × Value)) (st : StateV) (e : InterpError),
      applyResultBinds st l = .error e → ∃ msg, e = .evaluationError msg := by
  intro l
  induction l with
  | nil =>
    intro st e h
    simp [applyResultBinds] at h
  | cons p r ih =>
    intro st e h
    obtain ⟨n, v⟩ := p
    simp only [applyResultBinds, bind, Except.bind] at h
    cases hset : st.setDynamicValue n v with
    | error e2 =>
      rw [hset] at h
      cases h
      exact setDynamicValue_error_form hset
    | ok st2 =>
      rw [hset] at h
      exact ih st2 e h

theorem applyResultBinds_ok_rebind :
    ∀ (l : List (String × Value)) (st st' : StateV),
      applyResultBinds st l = .ok st' →
      ∀ m, st'.getRebindStatus m = st.getRebindStatus m := by
  intro l
  induction l with
  | nil =>
    intro st st' h m
    simp [applyResultBinds] at h
    rw [h]
  | cons p r ih =>
    intro st st' h m
    obtain ⟨n, v⟩ := p
    simp only [applyResultBinds, bind, Except.bind] at h
    cases hset : st.setDynamicValue n v with
    | error e2 =>
      rw [hset] at h
      cases h
    | ok st2 =>
      rw [hset] at h
      rw [ih st2 st' h m, setDynamicValue_ok_rebind hset m]

theorem applyResultBinds_never {name : String} :
    ∀ (l : List (String × Value)) (st : StateV),
      st.getRebindStatus name = .never → name ∈ l.map Prod.fst →
      ∃ msg, applyResultBinds st l = .error (.evaluationError msg) := by
  intro l
  induction l with
  | nil =>
    intro st _ hm
    simp at hm
  | cons p r ih =>
    intro st h hm
    obtain ⟨n, v⟩ := p
    by_cases hn : st.getRebindStatus n = .never
    · refine ⟨"cannot rebind " ++ n, ?_⟩
      simp only [applyResultBinds, bind, Except.bind]
      rw [setDynamicValue_never v hn]
    · have hm2 : name ∈ r.map Prod.fst := by
        rcases (by simpa using hm : name = n ∨ name ∈ r.map Prod.fst) with
          h1 | h2
        · exact absurd (h1 ▸ h) hn
        · exact h2
      obtain ⟨msg, hmsg⟩ :=
        ih (st.insertDynVal n v)
          (by rw [getRebindStatus_insertDynVal]; exact h) hm2
      refine ⟨msg, ?_⟩
      simp only [applyResultBinds, bind, Except.bind]
      rw [setDynamicValue_not_never v hn]
      exact hmsg

theorem applyRecursiveBinds_never {name : String} :
    ∀ (l : List (String × Value)) (st : StateV) (recs : List (String × Value)),
      st.getRebindStatus name = .never → name ∈ l.map Prod.fst →
      ∃ msg, applyRecursiveBinds st recs l = .error (.evaluationError msg) := by
  intro l
  induction l with
  | nil =>
    intro st recs _ hm
    simp at hm
  | cons p r ih =>
    intro st recs h hm
    obtain ⟨n, v⟩ := p
    by_cases hn : st.getRebindStatus n = .never
    · refine ⟨"cannot rebind " ++ n, ?_⟩
      simp only [applyRecursiveBinds, bind, Except.bind]
      rw [setDynamicValue_never _ hn]
    · have hm2 : name ∈ r.map Prod.fst := by
        rcases (by simpa using hm : name = n ∨ name ∈ r.map Prod.fst) with
          h1 | h2
        · exact absurd (h1 ▸ h) hn
        · exact h2
      simp only [applyRecursiveBinds, bind, Except.bind]
      rw [setDynamicValue_not_never _ hn]
      exact ih _ recs (by rw [getRebindStatus_insertDynVal]; exact h) hm2

theorem applyConstructorBinds_error_form :
    ∀ (l : List (String × Value)) (st : StateV) (e : InterpError),
      applyConstructorBinds st l = .error e → ∃ msg, e = .evaluationError msg := by
  intro l
  induction l with
  | nil =>
    intro st e h
    simp [applyConstructorBinds] at h
  | cons p r ih =>
    intro st e h
    obtain ⟨n, v⟩ := p
    simp only [applyConstructorBinds, bind, Except.bind] at h
    split at h
    · cases h
      exact ⟨_, rfl⟩
    · cases hset : st.setDynamicValue n v with
      | error e2 =>
        rw [hset] at h
        cases h
        exact setDynamicValue_error_form hset
      | ok st2 =>
        rw [hset] at h
        exact ih st2 e h

theorem applyConstructorBinds_ok_rebind :
    ∀ (l : List (String × Value)) (st st' : StateV),
      applyConstructorBinds st l = .ok st' →
      ∀ m, st'.getRebindStatus m = st.getRebindStatus m := by
  intro l
  induction l with
  | nil =>
    intro st st' h m
    simp [applyConstructorBinds] at h
    rw [h]
  | cons p r ih =>
    intro st st' h m
    obtain ⟨n, v⟩ := p
    simp only [applyConstructorBinds, bind, Except.bind] at h
    split at h
    · cases h
    · cases hset : st.setDynamicValue n v with
      | error e2 =>
        rw [hset] at h
        cases h
      | ok st2 =>
        rw [hset] at h
        rw [ih st2 st' h m, setDynamicValue_ok_rebind hset m]

theorem applyConstructorBinds_never {name : String} :
    ∀ (l : List (String × Value)) (st : StateV),
      st.getRebindStatus name = .never → name ∈ l.map Prod.fst →
      ∃ msg, applyConstructorBinds st l = .error (.evaluationError msg) := by
  intro l
  induction l with
  | nil =>
    intro st _ hm
    simp at hm
  | cons p r ih =>
    intro st h hm
    obtain ⟨n, v⟩ := p
    by_cases hn : st.getRebindStatus n = .never
    · refine ⟨"cannot rebind " ++ n, ?_⟩
      simp only [applyConstructorBinds, bind, Except.bind]
      rw [if_pos hn]
    · have hm2 : name ∈ r.map Prod.fst := by
        rcases (by simpa using hm : name = n ∨ name ∈ r.map Prod.fst) with
          h1 | h2
        · exact absurd (h1 ▸ h) hn
        · exact h2
      simp only [applyConstructorBinds, bind, Except.bind]
      rw [if_neg hn, setDynamicValue_not_never v hn]
      exact ih _ (by rw [getRebindStatus_insertDynVal]; exact h) hm2

theorem evalExcBindings_error_form :
    ∀ (l : List ((String × Option Ty) ⊕ (String × String))) (st : StateV)
      (e : InterpError),
      evalExcBindings st l = .error e → ∃ msg, e = .evaluationError msg := by
  intro l
  induction l with
  | nil =>
    intro st e h
    simp [evalExcBindings] at h
  | cons b r ih =>
    intro st e h
    simp only [evalExcBindings, bind, Except.bind] at h
    cases hb : evalExcBinding st b with
    | error e2 =>
      rw [hb] at h
      cases h
      cases b with
      | inl p =>
        obtain ⟨n, oty⟩ := p
        simp only [evalExcBinding, bind, Except.bind] at hb
        split at hb
        · cases hb
          exact ⟨_, rfl⟩
        · exact setDynamicValue_error_form hb
      | inr p =>
        obtain ⟨n, old⟩ := p
        simp only [evalExcBinding] at hb
        cases hv : StateV.getDynamicValue st old with
        | none =>
          rw [hv] at hb
          cases hb
          exact ⟨_, rfl⟩
        | some v =>
          rw [hv] at hb
          exact setDynamicValue_error_form hb
    | ok st2 =>
      rw [hb] at h
      exact ih st2 e h

theorem evalExcBinding_ok_rebind {st st' : StateV}
    {b : (String × Option Ty) ⊕ (String × String)}
    (h : evalExcBinding st b = .ok st') :
    ∀ m, st'.getRebindStatus m = st.getRebindStatus m := by
  intro m
  cases b with
  | inl p =>
    obtain ⟨n, oty⟩ := p
    simp only [evalExcBinding, bind, Except.bind] at h
    split at h
    · cases h
    · rw [setDynamicValue_ok_rebind h m,
        getRebindStatus_incrementValueIdentifierId]
  | inr p =>
    obtain ⟨n, old⟩ := p
    simp only [evalExcBinding] at h
    cases hv : StateV.getDynamicValue st old with
    | none =>
      rw [hv] at h
      cases h
    | some v =>
      rw [hv] at h
      exact setDynamicValue_ok_rebind h m

theorem evalExcBindings_never {name : String} :
    ∀ (l : List ((String × Option Ty) ⊕ (String × String))) (st : StateV),
      st.getRebindStatus name = .never →
      (∃ oty, Sum.inl (name, oty) ∈ l) →
      ∃ msg, evalExcBindings st l = .error (.evaluationError msg) := by
  intro l
  induction l with
  | nil =>
    intro st _ hm
    obtain ⟨oty, hoty⟩ := hm
    simp at hoty
  | cons b r ih =>
    intro st h hm
    obtain ⟨oty, hoty⟩ := hm
    simp only [evalExcBindings, bind, Except.bind]
    cases hb : evalExcBinding st b with
    | error e2 =>
      obtain ⟨msg, hmsg⟩ : ∃ msg, e2 = .evaluationError msg := by
        cases b with
        | inl p =>
          obtain ⟨n, oty2⟩ := p
          simp only [evalExcBinding, bind, Except.bind] at hb
          split at hb
          · cases hb
            exact ⟨_, rfl⟩
          · exact setDynamicValue_error_form hb
        | inr p =>
          obtain ⟨n, old⟩ := p
          simp only [evalExcBinding] at hb
          cases hv : StateV.getDynamicValue st old with
          | none =>
            rw [hv] at hb
            cases hb
            exact ⟨_, rfl⟩
          | some v =>
            rw [hv] at hb
            exact setDynamicValue_error_form hb
      exact ⟨msg, by rw [hmsg]⟩
    | ok st2 =>
      have hpres := evalExcBinding_ok_rebind hb
      have hm2 : Sum.inl (name, oty) ∈ r := by
        rcases (by simpa using hoty :
            Sum.inl (name, oty) = b ∨ Sum.inl (name, oty) ∈ r) with h1 | h2
        · exfalso
          cases h1.symm
          simp only [evalExcBinding, bind, Except.bind] at hb
          rw [if_pos (by
            rw [getRebindStatus_incrementValueIdentifierId]
            exact h)] at hb
          cases hb
        · exact h2
      exact ih st2 (by rw [hpres]; exact h) ⟨oty, hm2⟩

theorem datBindFold_spec :
    ∀ (cs : List (String × Option Ty))
      (acc : List (String × Value) × List String × StateV),
      ((List.foldl
          (fun (acc : List (String × Value) × List String × StateV)
               (c : String × Option Ty) =>
            (acc.1 ++
                [(c.1,
                    Value.valueConstructorV c.1
                      (if c.2.isSome = true then 1 else 0)
                      (acc.2.2.getValueIdentifierId c.1))],
              acc.2.1 ++ [c.1], acc.2.2.incrementValueIdentifierId c.1))
          acc cs).1.map Prod.fst = acc.1.map Prod.fst ++ cs.map Prod.fst) ∧
      ∀ m, StateV.getRebindStatus
          (List.foldl
            (fun (acc : List (String × Value) × List String × StateV)
                 (c : String × Option Ty) =>
              (acc.1 ++
                  [(c.1,
                      Value.valueConstructorV c.1
                        (if c.2.isSome = true then 1 else 0)
                        (acc.2.2.getValueIdentifierId c.1))],
                acc.2.1 ++ [c.1], acc.2.2.incrementValueIdentifierId c.1))
            acc cs).2.2 m =
        acc.2.2.getRebindStatus m := by
  intro cs
  induction cs with
  | nil =>
    intro acc
    simp
  | cons c r ih =>
    intro acc
    simp only [List.foldl_cons]
    constructor
    · rw [(ih _).1]
      simp
    · intro m
      rw [(ih _).2 m]
      simp [getRebindStatus_incrementValueIdentifierId]

theorem datBindCompute_spec (st : StateV)
    (db : List String × String × List (String × Option Ty)) :
    (datBindCompute st db).1.map Prod.fst = db.2.2.map Prod.fst ∧
    ∀ m, StateV.getRebindStatus (datBindCompute st db).2.2 m =
      st.getRebindStatus m := by
  simp only [datBindCompute]
  constructor
  · rw [(datBindFold_spec db.2.2 ([], [], st)).1]
    simp
  · intro m
    rw [(datBindFold_spec db.2.2 ([], [], st)).2 m]

theorem evalDatatypeBindings_never {name : String} :
    ∀ (dbs : List (List String × String × List (String × Option Ty)))
      (st : StateV),
      st.getRebindStatus name = .never →
      (∃ db ∈ dbs, name ∈ db.2.2.map Prod.fst) →
      ∃ msg, evalDatatypeBindings st dbs = .error (.evaluationError msg) := by
  intro dbs
  induction dbs with
  | nil =>
    intro st _ hm
    obtain ⟨db, hdb, _⟩ := hm
    simp at hdb
  | cons db0 r ih =>
    intro st h hm
    obtain ⟨hfst, hpres⟩ := datBindCompute_spec st db0
    simp only [evalDatatypeBindings, bind, Except.bind]
    rcases hdat : datBindCompute st db0 with ⟨ve, tydef, st1⟩
    rw [hdat] at hfst hpres
    simp only at hfst hpres
    obtain ⟨db, hdb, hnm⟩ := hm
    rcases List.mem_cons.mp hdb with rfl | hdbr
    · obtain ⟨msg, hmsg⟩ :=
        applyConstructorBinds_never ve st1
          (by rw [hpres]; exact h) (by rw [hfst]; exact hnm)
      refine ⟨msg, ?_⟩
      rw [hmsg]
    · cases hcon : applyConstructorBinds st1 ve with
      | error e2 =>
        obtain ⟨msg2, hm2⟩ := applyConstructorBinds_error_form ve st1 e2 hcon
        exact ⟨msg2, by rw [hm2]⟩
      | ok st2 =>
        have hst2 := applyConstructorBinds_ok_rebind ve st1 st2 hcon
        exact ih (st2.setDynamicType tydef.1 tydef.2)
          (by rw [getRebindStatus_setDynamicType, hst2, hpres]; exact h)
          ⟨db, hdbr, hnm⟩

/-- C1: an identifier whose rebind status is `Never` — as `true`, `false`,
`nil`, `::` and `ref` are in the initial state — cannot be overwritten:
a `val` declaration whose collected bindings bind it, a `datatype`
declaration with a constructor of that name, and an `exception`
declaration with a direct binding of that name all evaluate to an
`EvaluationError` instead. -/
theorem protected_identifiers_cannot_be_rebound :
    (∀ name ∈ ["true", "false", "nil", "::", "ref"],
        initialState.getRebindStatus name = .never) ∧
    ∀ (st : StateV) (name : String), st.getRebindStatus name = .never →
      (∀ (f : Nat) (tvs : List String) (vbs : List (Bool × Exp × Exp))
          (nid : Nat) (res recs : List (String × Value)),
          collectValBinds f st vbs false [] [] = .ok (.bindings res recs) →
          name ∈ res.map Prod.fst ++ recs.map Prod.fst →
          ∃ msg, evaluateDec (f + 1) st (.valueDec tvs vbs nid) =
            .error (.evaluationError msg)) ∧
      (∀ (f : Nat)
          (dbs : List (List String × String × List (String × Option Ty)))
          (nid : Nat),
          (∃ db ∈ dbs, name ∈ db.2.2.map Prod.fst) →
          ∃ msg, evaluateDec (f + 1) st (.datatypeDec dbs nid) =
            .error (.evaluationError msg)) ∧
      (∀ (f : Nat) (bs : List ((String × Option Ty) ⊕ (String × String)))
          (nid : Nat),
          (∃ oty, Sum.inl (name, oty) ∈ bs) →
          ∃ msg, evaluateDec (f + 1) st (.exceptionDec bs nid) =
            .error (.evaluationError msg)) := by
  constructor
  · intro name hname
    fin_cases hname <;> rfl
  intro st name h
  refine ⟨?_, ?_, ?_⟩
  · intro f tvs vbs nid res recs hcol hmem
    simp only [evaluateDec, bind, Except.bind]
    rw [hcol]
    rcases List.mem_append.mp hmem with hres | hrecs
    · obtain ⟨msg, hmsg⟩ := applyResultBinds_never res st h hres
      refine ⟨msg, ?_⟩
      simp [hmsg]
    · cases hra : applyResultBinds st res with
      | error e2 =>
        obtain ⟨msg2, hm2⟩ := applyResultBinds_error_form res st e2 hra
        exact ⟨msg2, by simp [hra, hm2]⟩
      | ok st1 =>
        obtain ⟨msg, hmsg⟩ :=
          applyRecursiveBinds_never recs st1 recs
            (by rw [applyResultBinds_ok_rebind res st st1 hra]; exact h) hrecs
        refine ⟨msg, ?_⟩
        simp [hra, hmsg]
  · intro f dbs nid hmem
    obtain ⟨msg, hmsg⟩ := evalDatatypeBindings_never dbs st h hmem
    refine ⟨msg, ?_⟩
    simp only [evaluateDec, bind, Except.bind]
    rw [hmsg]
  · intro f bs nid hmem
    obtain ⟨msg, hmsg⟩ := evalExcBindings_never bs st h hmem
    refine ⟨msg, ?_⟩
    simp only [evaluateDec, bind, Except.bind]
    rw [hmsg]

/-- C1 witness: in a frame where `x` is rebind-protected, the
declarations `val x = 1`, `datatype t = x` and `exception x` all raise
an `EvaluationError`, and the five predefined protected names are
`Never` in the initial state. -/
theorem protected_identifiers_cannot_be_rebound_witness :
    (StateV.getRebindStatus initialState "nil" = .never) ∧
    (∃ msg, evaluateDec 6 wstC1
        (.valueDec [] [(false, .valueIdentifier "x", .constantInt 1)] 0) =
      .error (.evaluationError msg)) ∧
    (∃ msg, evaluateDec 6 wstC1 (.datatypeDec [([], "t", [("x", none)])] 0) =
      .error (.evaluationError msg)) ∧
    (∃ msg, evaluateDec 6 wstC1 (.exceptionDec [.inl ("x", none)] 0) =
      .error (.evaluationError msg)) :=
  ⟨protected_identifiers_cannot_be_rebound.1 "nil" (by simp),
   (protected_identifiers_cannot_be_rebound.2 wstC1 "x" rfl).1 5 []
     [(false, .valueIdentifier "x", .constantInt 1)] 0
     [("x", .integerV 1)] [] rfl (by simp),
   (protected_identifiers_cannot_be_rebound.2 wstC1 "x" rfl).2.1 5
     [([], "t", [("x", none)])] 0
     ⟨([], "t", [("x", none)]), by simp, by simp⟩,
   (protected_identifiers_cannot_be_rebound.2 wstC1 "x" rfl).2.2 5
     [.inl ("x", none)] 0 ⟨none, by simp⟩⟩

/-- C3: whenever processing a source chunk fails — at lexing, parsing,
elaboration, evaluation, or by an uncaught exception reaching the top
level — `interpret` hands back exactly the state it was given, so no
effect of the failed chunk is observable. -/
theorem interpret_error_preserves_state :
    ∀ (parseFn : List Token → Except String Dec) (fuel : Nat)
      (source : String) (st : StateV),
      (interpret parseFn fuel source st).errored = true →
      (interpret parseFn fuel source st).state = st := by
  intro parseFn fuel source st
  unfold interpret
  split
  · exact fun _ => rfl
  · split
    · exact fun _ => rfl
    · dsimp only
      split
      · exact fun _ => rfl
      · split
        · exact fun _ => rfl
        · exact fun _ => rfl
        · intro h
          simp at h

/-- C3 witness: the chunk `1073741824` fails at the lexer (its constant
exceeds `MAXINT`), and the state handed back is the one passed in. -/
theorem interpret_error_preserves_state_witness :
    (interpret (fun _ => .error "no parse") 9 "1073741824" wstC1).errored
        = true ∧
      (interpret (fun _ => .error "no parse") 9 "1073741824" wstC1).state
        = wstC1 :=
  ⟨rfl, interpret_error_preserves_state (fun _ => .error "no parse") 9
    "1073741824" wstC1 rfl⟩

end SOSML
